import Mathlib

/-!
# migrate-s3-bucket: a verification development

A shallow embedding of `migrate.go`.

* Go `string` is `String`; a possibly-nil `*string` is `Option String`;
  an `error` is its message (`Option String` for a possibly-nil error).
* The collaborators the program talks to (session creation, the two S3
  endpoints, the clock, standard output) are one `Backend`: a function that
  answers every `Call` and moves an abstract world on.
* `copyObject` is written as a `Prog`: the tree of calls it issues, each with
  the continuation the source runs on the answer.  `exec` runs a `Prog`
  against a backend; the dispatcher of `main` interleaves the `Prog`s of its
  workers one call at a time.
-/

namespace Migrate

/-! ## Data model -/

abbrev Byte := Fin 256

/-- The `ProfileConfig` struct of the source. -/
structure ProfileConfig where
  Region : String
  Endpoint : String
  AccessKey : String
  SecretKey : String
deriving DecidableEq, Repr

/-- The `Config` struct of the source (its `Profiles` field is flattened). -/
structure Config where
  OldProfile : ProfileConfig
  NewProfile : ProfileConfig
deriving DecidableEq, Repr

/-- A Go value-or-error pair `(v, err)`. -/
inductive Res (α : Type) where
  | ok (v : α)
  | error (msg : String)
deriving DecidableEq, Repr

structure HeadObjectInput where
  Bucket : String
  Key : String
deriving DecidableEq, Repr

structure GetObjectInput where
  Bucket : String
  Key : String
deriving DecidableEq, Repr

/-- The fields of `s3.GetObjectOutput` the program reads.  `Body` is what
`ioutil.ReadAll` yields on the body stream. -/
structure GetObjectOutput where
  Body : Res (List Byte)
  ContentType : Option String
  ETag : Option String
deriving DecidableEq, Repr

structure PutObjectInput where
  Bucket : String
  Key : String
  Body : List Byte
  ContentType : Option String
deriving DecidableEq, Repr

structure PutObjectOutput where
  ETag : Option String
deriving DecidableEq, Repr

/-! ## Calls to the outside world -/

/-- Every operation `copyObject` and `main` perform on a collaborator. -/
inductive Call where
  /-- The call `session.NewSessionWithOptions` for the named profile. -/
  | newSession (profile : String) (cfg : ProfileConfig)
  /-- The call `newS3Client.HeadObject`. -/
  | headObject (input : HeadObjectInput)
  /-- The call `oldS3Client.GetObject` followed by `ioutil.ReadAll` of the body. -/
  | getObject (input : GetObjectInput)
  /-- The call `newS3Client.PutObject`. -/
  | putObject (input : PutObjectInput)
  /-- The call `time.Now`; the answer is the instant, in nanoseconds. -/
  | timeNow
  /-- The call `time.Since start`; the answer is the duration in nanoseconds. -/
  | timeSince (start : Nat)
  /-- A write to standard output. -/
  | print (s : String)
deriving DecidableEq, Repr

/-- The type of the answer to each call. -/
@[reducible] def Call.Resp : Call → Type
  | .newSession _ _ => Option String
  | .headObject _ => Res Unit
  | .getObject _ => Res GetObjectOutput
  | .putObject _ => Res PutObjectOutput
  | .timeNow => Nat
  | .timeSince _ => Int
  | .print _ => Unit

/-- One performed call with its answer. -/
abbrev Event := (c : Call) × c.Resp

/-- The collaborators: given the world and a call, the answer and the next world. -/
abbrev Backend (σ : Type) := σ → (c : Call) → c.Resp × σ

/-- A Go function body as the tree of its calls.  `ret err` is `return err`,
`panic` is a run-time panic. -/
inductive Prog where
  | ret (err : Option String)
  | panic (msg : String)
  | call (c : Call) (k : c.Resp → Prog)

/-- How a function body ended. -/
inductive Outcome where
  | returned (err : Option String)
  | panicked (msg : String)
deriving DecidableEq, Repr

/-- The run of a function body: how it ended, the world it left, the calls it made. -/
structure Run (σ : Type) where
  result : Outcome
  world : σ
  trace : List Event

/-- Run a function body to its end against a backend. -/
def exec {σ : Type} (B : Backend σ) : Prog → σ → Run σ
  | .ret err, w => ⟨.returned err, w, []⟩
  | .panic msg, w => ⟨.panicked msg, w, []⟩
  | .call c k, w =>
    let a := B w c
    let rest := exec B (k a.1) a.2
    ⟨rest.result, rest.world, ⟨c, a.1⟩ :: rest.trace⟩

/-! ## Library functions the source calls -/

/-- Go `strings.HasSuffix`:
`len(s) >= len(suffix) && s[len(s)-len(suffix):] == suffix`. -/
def HasSuffix (s suffix : String) : Bool :=
  decide (s.length ≥ suffix.length) &&
    (s.data.drop (s.length - suffix.length) == suffix.data)

/-- Go `Duration.Milliseconds`: nanoseconds over 1e6, truncated toward zero. -/
def Milliseconds (d : Int) : Int := Int.tdiv d 1000000

/-! ## copyObject -/

/-- The integrity check and the success report, lines 152-160. -/
def copyObject.verify (filename : String) (startTime : Nat)
    (oldObject : GetObjectOutput) (newObject : PutObjectOutput) : Prog :=
  match oldObject.ETag, newObject.ETag with
  | some oldETag, some newETag =>
    if oldETag ≠ newETag then
      .ret (some ("[" ++ filename ++ "] ETags don't match after copy: "
        ++ oldETag ++ " != " ++ newETag))
    else
      .call (.timeSince startTime) fun elapsedTime =>
      .call (.print ("[" ++ filename
        ++ "] Successfully copied object from old profile to new profile in: "
        ++ toString (Milliseconds elapsedTime) ++ " ms.\n")) fun _ =>
      .ret none
  | _, _ => .panic "runtime error: invalid memory address or nil pointer dereference"

/-- The upload request and its content-type, lines 131-143. -/
def copyObject.putObjectInput (bucket filename : String) (objectBytes : List Byte)
    (oldObject : GetObjectOutput) : PutObjectInput :=
  let putObjectInput : PutObjectInput :=
    { Bucket := bucket, Key := filename, Body := objectBytes,
      ContentType := oldObject.ContentType }
  if HasSuffix filename ".jpg" || HasSuffix filename ".jpeg" then
    { putObjectInput with ContentType := some "image/jpeg" }
  else if HasSuffix filename ".png" then
    { putObjectInput with ContentType := some "image/png" }
  else putObjectInput

/-- The download and the upload, lines 109-150. -/
def copyObject.transfer (bucket filename : String) : Prog :=
  .call .timeNow fun startTime =>
  .call (.getObject { Bucket := bucket, Key := filename }) fun got =>
  match got with
  | .error err =>
    .ret (some ("[" ++ filename ++ "] failed to get object from old profile: " ++ err))
  | .ok oldObject =>
    match oldObject.Body with
    | .error err => .ret (some ("failed to read object body: " ++ err))
    | .ok objectBytes =>
      .call (.putObject (copyObject.putObjectInput bucket filename objectBytes oldObject))
        fun put =>
      match put with
      | .error err =>
        .ret (some ("[" ++ filename ++ "] failed to put object to new profile: " ++ err))
      | .ok newObject => copyObject.verify filename startTime oldObject newObject

/-- The function `copyObject` of the source. -/
def copyObject (bucket filename : String) (checkExistence : Bool)
    (oldProfileConfig newProfileConfig : ProfileConfig) : Prog :=
  .call (.newSession "old" oldProfileConfig) fun err =>
  match err with
  | some err => .ret (some ("failed to create session for old profile: " ++ err))
  | none =>
    .call (.newSession "new" newProfileConfig) fun err =>
    match err with
    | some err => .ret (some ("failed to create session for new profile: " ++ err))
    | none =>
      if checkExistence then
        .call (.headObject { Bucket := bucket, Key := filename }) fun head =>
        match head with
        | .ok _ =>
          .call (.print ("[" ++ filename
            ++ "] already exists in the destination bucket. Skipping copy.\n")) fun _ =>
          .ret none
        | .error _ => copyObject.transfer bucket filename
      else copyObject.transfer bucket filename


/-! ## Reading a run -/

/-- The event as a destination head probe. -/
def Event.head? : Event → Option (HeadObjectInput × Res Unit)
  | ⟨.headObject i, r⟩ => some (i, r)
  | _ => none

/-- The event as a source get. -/
def Event.get? : Event → Option (GetObjectInput × Res GetObjectOutput)
  | ⟨.getObject i, r⟩ => some (i, r)
  | _ => none

/-- The event as a destination put. -/
def Event.put? : Event → Option (PutObjectInput × Res PutObjectOutput)
  | ⟨.putObject i, r⟩ => some (i, r)
  | _ => none

/-- The event as a line written to standard output. -/
def Event.print? : Event → Option String
  | ⟨.print s, _⟩ => some s
  | _ => none

/-- The destination head probes a run made, with their answers. -/
def headCalls (t : List Event) : List (HeadObjectInput × Res Unit) :=
  t.filterMap Event.head?

/-- The source gets a run made, with their answers. -/
def getCalls (t : List Event) : List (GetObjectInput × Res GetObjectOutput) :=
  t.filterMap Event.get?

/-- The destination puts a run made, with their answers. -/
def putCalls (t : List Event) : List (PutObjectInput × Res PutObjectOutput) :=
  t.filterMap Event.put?

/-- The lines a run wrote to standard output. -/
def printed (t : List Event) : List String :=
  t.filterMap Event.print?

/-- The text `t` occurs in `s`. -/
def Names (s t : String) : Prop := ∃ p q : String, s = p ++ t ++ q

/-- The spec's "key ends in": the key is some text followed by the suffix. -/
def EndsIn (key suffix : String) : Prop := ∃ p : String, key = p ++ suffix

/-- The spec's content-type rule (section 4.3 step 4), as a relation between
the key, the source content-type and the content-type of the upload. -/
def SpecContentType (key : String) (source upload : Option String) : Prop :=
  ((EndsIn key ".jpg" ∨ EndsIn key ".jpeg") → upload = some "image/jpeg") ∧
  (¬ (EndsIn key ".jpg" ∨ EndsIn key ".jpeg") → EndsIn key ".png" →
    upload = some "image/png") ∧
  (¬ (EndsIn key ".jpg" ∨ EndsIn key ".jpeg") → ¬ EndsIn key ".png" →
    upload = source)

/-- The calls that move an object: the source get and the destination put. -/
def Call.movesData : Call → Bool
  | .getObject _ => true
  | .putObject _ => true
  | _ => false

/-! ## The worker pool of main -/

/-- The value `main` gives `numWorkers`. -/
def numWorkers : Nat := 100

/-- The line a worker prints for a failed `copyObject`, line 206:
`fmt.Println("Error processing line:", err)`. -/
def workerReport (err : String) : String := "Error processing line: " ++ err ++ "\n"

/-- Where one worker goroutine stands. -/
inductive Worker where
  /-- Blocked at `for line := range lineChan`. -/
  | waiting
  /-- Inside `copyObject(bucket, line, ...)`, with `rest` still to run. -/
  | copying (line : String) (rest : Prog)
  /-- Out of the loop; the deferred `wg.Done()` ran. -/
  | done
  /-- Gone in a panic of `copyObject(bucket, line, ...)`, which never
  returned; the deferred `wg.Done()` ran. -/
  | panicked (line : String)

/-- Where the feeder goroutine stands. -/
inductive Feeder where
  /-- In the loop `for scanner.Scan()`. -/
  | scanning
  /-- Out of the loop, `scanner.Err()` reported; the deferred close is next. -/
  | finishing
  /-- The call `close(lineChan)` ran. -/
  | closed
deriving DecidableEq, Repr

/-- What a run of the pool is given. -/
structure Params (σ : Type) where
  backend : Backend σ
  bucket : String
  checkExistence : Bool
  config : Config
  numWorkers : Nat

/-- The state of the pool: the feeder, the channel, the workers, and the
world they share. `invoked` lists the lines `copyObject` was called with,
`completed` the calls that returned, with what they returned; `crashed` says
that a goroutine has panicked, so that the runtime is about to end the
process. -/
structure Pool (σ : Type) where
  unread : List String
  scanErr : Option String
  feeder : Feeder
  lineChan : List String
  workers : List Worker
  invoked : List String
  completed : List (String × Option String)
  crashed : Bool
  world : σ
  trace : List Event

/-- The pool as `main` starts it, on the lines the scanner will yield. -/
def Pool.init {σ : Type} (P : Params σ) (lines : List String) (scanErr : Option String)
    (w : σ) : Pool σ :=
  { unread := lines, scanErr := scanErr, feeder := .scanning, lineChan := [],
    workers := List.replicate P.numWorkers .waiting, invoked := [], completed := [],
    crashed := false, world := w, trace := [] }

/-- One atomic step of one goroutine. -/
inductive Action where
  /-- Feeder: `lineChan <- scanner.Text()`. -/
  | send
  /-- Feeder: `scanner.Scan()` is false; `scanner.Err()` is reported. -/
  | endScan
  /-- Feeder: the deferred `close(lineChan)`. -/
  | close
  /-- Worker `i` receives a line and calls `copyObject` on it. -/
  | receive (i : Nat)
  /-- Worker `i` performs the next call of its `copyObject`. -/
  | advance (i : Nat)
  /-- Worker `i`: `copyObject` returns; an error is printed. -/
  | finish (i : Nat)
  /-- Worker `i`: `copyObject` panics; the deferred `wg.Done()` runs and the
  goroutine is gone. The runtime then ends the process with status 2; until it
  has, the other goroutines go on. -/
  | crash (i : Nat)
  /-- Worker `i` finds the channel closed and empty and leaves. -/
  | leave (i : Nat)
deriving DecidableEq, Repr

/-- Perform a call of the pool against the shared world. -/
def Pool.perform {σ : Type} (P : Params σ) (s : Pool σ) (c : Call) : c.Resp × Pool σ :=
  let a := P.backend s.world c
  (a.1, { s with world := a.2, trace := s.trace ++ [⟨c, a.1⟩] })

/-- The step relation of the pool, as a partial function: `none` when the
action is not enabled. -/
def Pool.step {σ : Type} (P : Params σ) (s : Pool σ) : Action → Option (Pool σ)
  | .send =>
    match s.feeder, s.unread with
    | .scanning, line :: rest =>
      if s.lineChan.length < P.numWorkers then
        some { s with unread := rest, lineChan := s.lineChan ++ [line] }
      else none
    | _, _ => none
  | .endScan =>
    match s.feeder, s.unread with
    | .scanning, [] =>
      match s.scanErr with
      | some err =>
        some { (s.perform P (.print ("Error reading file: " ++ err ++ "\n"))).2 with
          feeder := .finishing }
      | none => some { s with feeder := .finishing }
    | _, _ => none
  | .close =>
    match s.feeder with
    | .finishing => some { s with feeder := .closed }
    | _ => none
  | .receive i =>
    match s.workers[i]?, s.lineChan with
    | some .waiting, line :: rest =>
      some { s with
        lineChan := rest
        workers := s.workers.set i (.copying line
          (copyObject P.bucket line P.checkExistence P.config.OldProfile P.config.NewProfile))
        invoked := line :: s.invoked }
    | _, _ => none
  | .advance i =>
    match s.workers[i]? with
    | some (.copying line (.call c k)) =>
      let a := s.perform P c
      some { a.2 with workers := s.workers.set i (.copying line (k a.1)) }
    | _ => none
  | .finish i =>
    match s.workers[i]? with
    | some (.copying line (.ret err)) =>
      let s1 : Pool σ :=
        match err with
        | some e => (s.perform P (.print (workerReport e))).2
        | none => s
      some { s1 with
        workers := s.workers.set i .waiting
        completed := (line, err) :: s.completed }
    | _ => none
  | .crash i =>
    match s.workers[i]? with
    | some (.copying line (.panic _)) =>
      some { s with workers := s.workers.set i (.panicked line), crashed := true }
    | _ => none
  | .leave i =>
    match s.workers[i]?, s.feeder, s.lineChan with
    | some .waiting, .closed, [] => some { s with workers := s.workers.set i .done }
    | _, _, _ => none

/-- The step relation of the pool, one rule per enabled action: what
`Pool.step` computes, read as a relation between states. -/
inductive Pool.Step {σ : Type} (P : Params σ) (s : Pool σ) : Pool σ → Prop where
  | send (line : String) (rest : List String) :
    s.feeder = .scanning → s.unread = line :: rest →
    s.lineChan.length < P.numWorkers →
    Pool.Step P s { s with unread := rest, lineChan := s.lineChan ++ [line] }
  | endScanErr (err : String) :
    s.feeder = .scanning → s.unread = [] → s.scanErr = some err →
    Pool.Step P s { s with
      feeder := .finishing
      world := (P.backend s.world (.print ("Error reading file: " ++ err ++ "\n"))).2
      trace := s.trace ++ [⟨.print ("Error reading file: " ++ err ++ "\n"),
        (P.backend s.world (.print ("Error reading file: " ++ err ++ "\n"))).1⟩] }
  | endScan :
    s.feeder = .scanning → s.unread = [] → s.scanErr = none →
    Pool.Step P s { s with feeder := .finishing }
  | close :
    s.feeder = .finishing →
    Pool.Step P s { s with feeder := .closed }
  | receive (i : Nat) (line : String) (rest : List String) :
    s.workers[i]? = some .waiting → s.lineChan = line :: rest →
    Pool.Step P s { s with
      lineChan := rest
      workers := s.workers.set i (.copying line
        (copyObject P.bucket line P.checkExistence P.config.OldProfile P.config.NewProfile))
      invoked := line :: s.invoked }
  | advance (i : Nat) (line : String) (c : Call) (k : c.Resp → Prog) :
    s.workers[i]? = some (.copying line (.call c k)) →
    Pool.Step P s { s with
      workers := s.workers.set i (.copying line (k (P.backend s.world c).1))
      world := (P.backend s.world c).2
      trace := s.trace ++ [⟨c, (P.backend s.world c).1⟩] }
  | finishOk (i : Nat) (line : String) :
    s.workers[i]? = some (.copying line (.ret none)) →
    Pool.Step P s { s with
      workers := s.workers.set i .waiting
      completed := (line, none) :: s.completed }
  | finishErr (i : Nat) (line : String) (e : String) :
    s.workers[i]? = some (.copying line (.ret (some e))) →
    Pool.Step P s { s with
      workers := s.workers.set i .waiting
      completed := (line, some e) :: s.completed
      world := (P.backend s.world (.print (workerReport e))).2
      trace := s.trace ++ [⟨.print (workerReport e),
        (P.backend s.world (.print (workerReport e))).1⟩] }
  | crash (i : Nat) (line : String) (msg : String) :
    s.workers[i]? = some (.copying line (.panic msg)) →
    Pool.Step P s { s with workers := s.workers.set i (.panicked line), crashed := true }
  | leave (i : Nat) :
    s.workers[i]? = some .waiting → s.feeder = .closed →
    s.lineChan = [] →
    Pool.Step P s { s with workers := s.workers.set i .done }

/-- Perform a schedule: a list of actions, one after the other. -/
def Pool.run {σ : Type} (P : Params σ) (s : Pool σ) : List Action → Option (Pool σ)
  | [] => some s
  | a :: rest =>
    match s.step P a with
    | some t => t.run P rest
    | none => none

/-- Some interleaving of the goroutines leads from `s` to `t`. -/
def Reaches {σ : Type} (P : Params σ) (s t : Pool σ) : Prop :=
  ∃ schedule, s.run P schedule = some t

/-- The worker has left its loop by the end of the range over the channel. -/
def Worker.isDone : Worker → Bool
  | .done => true
  | _ => false

/-- The state `wg.Wait()` returns in when no goroutine has panicked: every
worker has left its loop. -/
def Pool.Done {σ : Type} (s : Pool σ) : Prop :=
  s.crashed = false ∧ s.workers.all Worker.isDone = true

instance {σ : Type} (s : Pool σ) : Decidable s.Done := by
  unfold Pool.Done
  infer_instance

/-- The worker's `wg.Done()` ran: it left its loop, or went in a panic. -/
def Worker.isGone : Worker → Bool
  | .done => true
  | .panicked _ => true
  | _ => false

/-- The state `wg.Wait()` returns in: the counter of the wait group is zero. -/
def Pool.Waited {σ : Type} (s : Pool σ) : Prop :=
  s.workers.all Worker.isGone = true

instance {σ : Type} (s : Pool σ) : Decidable s.Waited := by
  unfold Pool.Waited
  infer_instance

/-- The line whose `copyObject` the worker has called and not seen return. -/
def Worker.line? : Worker → Option String
  | .copying line _ => some line
  | .panicked line => some line
  | _ => none

/-- The lines in flight: taken from the channel, their `copyObject` not returned. -/
def Pool.inFlight {σ : Type} (s : Pool σ) : List String :=
  s.workers.filterMap Worker.line?

/-- What every reachable state of the pool satisfies: no line is lost or
duplicated on its way from the file through the channel to a worker. -/
structure Pool.Inv {σ : Type} (P : Params σ) (lines : List String) (s : Pool σ) : Prop where
  perm : (s.unread ++ s.lineChan ++ s.invoked).Perm lines
  scanned : s.feeder ≠ .scanning → s.unread = []
  drained : (∃ wk ∈ s.workers, wk.isDone = true) → s.feeder = .closed ∧ s.lineChan = []
  size : s.workers.length = P.numWorkers
  flight : (s.completed.map Prod.fst ++ s.inFlight).Perm s.invoked

/-! ## The storage model of the idempotence property -/

/-- The storage is durable: a put that succeeded makes the key present to a
later head probe, a key that is present stays present whatever is called
next, and whether a session can be created depends on the profile alone. -/
structure Durable {σ : Type} (B : Backend σ) : Prop where
  put_present : ∀ (w : σ) (i : PutObjectInput) (out : PutObjectOutput),
    (B w (.putObject i)).1 = .ok out →
    (B (B w (.putObject i)).2 (.headObject ⟨i.Bucket, i.Key⟩)).1 = .ok ()
  present_stable : ∀ (w : σ) (c : Call) (i : HeadObjectInput),
    (B w (.headObject i)).1 = .ok () → (B (B w c).2 (.headObject i)).1 = .ok ()
  session_static : ∀ (w w1 : σ) (profile : String) (cfg : ProfileConfig),
    (B w (.newSession profile cfg)).1 = (B w1 (.newSession profile cfg)).1

/-- In world `w` a `copyObject` on `line` would skip: both sessions can be
created and the head probe finds the object. -/
def Ready {σ : Type} (P : Params σ) (line : String) (w : σ) : Prop :=
  (P.backend w (.newSession "old" P.config.OldProfile)).1 = none ∧
  (P.backend w (.newSession "new" P.config.NewProfile)).1 = none ∧
  (P.backend w (.headObject ⟨P.bucket, line⟩)).1 = .ok ()

/-- The function body cannot return success before a call of it has left
the world in a state where `good` holds. -/
def Prog.Unearned {σ : Type} (B : Backend σ) (good : σ → Prop) : Prog → Prop
  | .ret err => err ≠ none
  | .panic _ => True
  | .call c k => ∀ w, good (B w c).2 ∨ Prog.Unearned B good (k (B w c).1)

/-- Run in worlds where `good` holds, the function body issues no get and no
put, does not panic, and returns success. -/
def Prog.Skips {σ : Type} (B : Backend σ) (good : σ → Prop) : Prog → Prop
  | .ret err => err = none
  | .panic _ => False
  | .call c k => c.movesData = false ∧ ∀ w, good w → Prog.Skips B good (k (B w c).1)

/-- What every reachable state of a first run satisfies: a `copyObject` that
returned success left its line ready to be skipped. -/
structure Pool.Earned {σ : Type} (P : Params σ) (s : Pool σ) : Prop where
  busy : ∀ line rest, Worker.copying line rest ∈ s.workers →
    Ready P line s.world ∨ rest.Unearned P.backend (Ready P line)
  finished : ∀ line, (line, none) ∈ s.completed → Ready P line s.world

/-- What every reachable state of a run satisfies when every line of the
file was ready to be skipped at its start. -/
structure Pool.Skipping {σ : Type} (P : Params σ) (lines : List String) (s : Pool σ) :
    Prop where
  ready : ∀ line ∈ lines, Ready P line s.world
  busy : ∀ line rest, Worker.copying line rest ∈ s.workers →
    line ∈ lines ∧ rest.Skips P.backend (Ready P line)
  finished : ∀ kr ∈ s.completed, kr.2 = none
  alive : s.crashed = false
  still : ∀ e ∈ s.trace, e.1.movesData = false

/-! ## The start of main -/

/-- The command line, parsed by `init`. -/
structure Flags where
  bucket : String
  configPath : String
  filename : String
  checkExistence : Bool
deriving DecidableEq, Repr

/-- The file system as `main` sees it. -/
structure Files where
  /-- The call `ioutil.ReadFile`. -/
  readFile : String → Res (List Byte)
  /-- The call `yaml.Unmarshal` into a `Config`. -/
  unmarshal : List Byte → Res Config
  /-- The call `os.Open`, answering the lines the scanner will yield from
  the file and what `scanner.Err()` says after them. -/
  openLines : String → Res (List String × Option String)

/-- The function `ReadConfig` of the source. -/
def ReadConfig (fs : Files) (configPath : String) : Res Config :=
  match fs.readFile configPath with
  | .error err => .error ("error reading config file: " ++ err)
  | .ok configBytes =>
    match fs.unmarshal configBytes with
    | .error err => .error ("error parsing config file: " ++ err)
    | .ok config => .ok config

/-- How `main` begins: the process exits before any goroutine is started,
with the given status and output, or the pool starts. -/
inductive Started (σ : Type) where
  | exit (status : Nat) (stdout : List String)
  | pool (P : Params σ) (s : Pool σ)

/-- The function `main` of the source up to the start of the goroutines,
lines 164-221. -/
def main {σ : Type} (B : Backend σ) (w : σ) (fs : Files) (flags : Flags) : Started σ :=
  if flags.configPath = "" || flags.filename = "" || flags.bucket = "" then
    .exit 1 ["Usage: --config <config_path> --filename <file_path> --bucket <bucket_name> [--check]\n"]
  else
    match ReadConfig fs flags.configPath with
    | .error err => .exit 1 ["Error loading configuration: " ++ err ++ "\n"]
    | .ok config =>
      match fs.openLines flags.filename with
      | .error err => .exit 0 ["Error opening file: " ++ err ++ "\n"]
      | .ok (lines, scanErr) =>
        let P : Params σ :=
          { backend := B, bucket := flags.bucket, checkExistence := flags.checkExistence,
            config := config, numWorkers := numWorkers }
        .pool P (Pool.init P lines scanErr w)

/-! ## A concrete backend -/

/-- A scripted pair of buckets: what session creation, the source bucket
and the destination bucket answer. -/
structure Fake where
  /-- The error of session creation, by profile name. -/
  sessionErr : String → Option String
  /-- What the source bucket answers a get, by bucket and key. -/
  source : List ((String × String) × GetObjectOutput)
  /-- The error the destination answers every put with, when set. -/
  putErr : Option String
  /-- The entity tag the destination answers a put of these bytes with. -/
  putETag : List Byte → Option String

/-- The backend of a scripted pair of buckets. The world is the list of the
bucket and key pairs present at the destination: a put that succeeds adds
its pair, and a head probe succeeds on the pairs in the list. -/
def Fake.backend (f : Fake) : Backend (List (String × String))
  | w, .newSession profile _ => (f.sessionErr profile, w)
  | w, .headObject i =>
    (if (i.Bucket, i.Key) ∈ w then .ok () else .error "NotFound", w)
  | w, .getObject i =>
    (match f.source.lookup (i.Bucket, i.Key) with
      | some o => .ok o
      | none => .error "NoSuchKey", w)
  | w, .putObject i =>
    match f.putErr with
    | some e => (.error e, w)
    | none => (.ok ⟨f.putETag i.Body⟩, (i.Bucket, i.Key) :: w)
  | w, .timeNow => ((0 : Nat), w)
  | w, .timeSince _ => ((0 : Int), w)
  | w, .print _ => ((), w)

/-! ## Concrete inputs -/

/-- A profile, used for both ends of the concrete runs. -/
def someProfile : ProfileConfig :=
  { Region := "eu-west-1", Endpoint := "http://localhost:9000", AccessKey := "AK",
    SecretKey := "SK" }

/-- A three-byte text object with an entity tag. -/
def textObject : GetObjectOutput :=
  { Body := .ok [104, 105, 10], ContentType := some "text/plain", ETag := some "e1" }

/-- A source holding some keys, and a destination that answers the same
entity tag: every copy of a key the source holds succeeds. -/
def shop : Fake :=
  { sessionErr := fun _ => none
    source := [(("b", "photo.JPG"), textObject), (("b", "a.png"), textObject),
      (("b", "b.jpg"), textObject), (("b", "c.txt"), textObject)]
    putErr := none
    putETag := fun _ => some "e1" }

/-- As `shop`, with a destination that answers another entity tag. -/
def shopOtherTag : Fake := { shop with putETag := fun _ => some "e2" }

/-- As `shop`, with a destination that answers no entity tag. -/
def shopNoTag : Fake := { shop with putETag := fun _ => none }

/-- A three-byte text object without an entity tag. -/
def untaggedObject : GetObjectOutput :=
  { Body := .ok [104, 105, 10], ContentType := some "text/plain", ETag := none }

/-- A source whose object `c.txt` carries no entity tag, and a destination
that answers no entity tag either. -/
def shopUntagged : Fake :=
  { sessionErr := fun _ => none
    source := [(("b", "c.txt"), untaggedObject)]
    putErr := none
    putETag := fun _ => none }

/-- As `shopUntagged`, with a destination that answers the entity tag `e1`. -/
def shopUntaggedSource : Fake := { shopUntagged with putETag := fun _ => some "e1" }

/-- A source whose object `a.txt` cannot be read to its end. -/
def shopBrokenBody : Fake :=
  { shop with
    source := [(("b", "a.txt"),
      { Body := .error "unexpected EOF", ContentType := none, ETag := some "e1" })] }

/-- The command line of the concrete runs, with the existence check enabled. -/
def shopFlags : Flags :=
  { bucket := "b", configPath := "config.yaml", filename := "keys.txt",
    checkExistence := true }

/-- A file system holding the configuration and a key list of three lines,
the last of which the source of `shop` does not hold. -/
def shopFiles : Files :=
  { readFile := fun _ => .ok []
    unmarshal := fun _ => .ok ⟨someProfile, someProfile⟩
    openLines := fun _ => .ok (["a.png", "b.jpg", "missing.txt"], none) }

/-- As `shopFiles`, with a key list that cannot be opened. -/
def noKeyList : Files :=
  { shopFiles with
    openLines := fun _ => .error "open keys.txt: no such file or directory" }

/-- The parameters `main` starts the pool with on `shopFlags` over `shop`. -/
def shopParams : Params (List (String × String)) :=
  { backend := shop.backend, bucket := "b", checkExistence := true,
    config := ⟨someProfile, someProfile⟩, numWorkers := numWorkers }

/-- The schedule in which worker 0 alone performs `n` calls and finishes. -/
def soloCopy (n : Nat) : List Action :=
  .receive 0 :: List.replicate n (.advance 0) ++ [.finish 0]

/-- Every worker leaves, in order. -/
def allLeave : List Action := (List.range numWorkers).map .leave

/-- A first run on the three lines: the feeder sends them all, worker 0
copies `a.png` and `b.jpg` (eight calls each) and fails on `missing.txt`
(five calls), and every worker leaves. -/
def firstSchedule : List Action :=
  [.send, .send, .send, .endScan, .close] ++ soloCopy 8 ++ soloCopy 8 ++ soloCopy 5
    ++ allLeave

/-- A second run on the three lines: worker 0 skips `a.png` and `b.jpg` (four
calls each) and fails again on `missing.txt` (five calls). -/
def secondSchedule : List Action :=
  [.send, .send, .send, .endScan, .close] ++ soloCopy 4 ++ soloCopy 4 ++ soloCopy 5
    ++ allLeave

/-- A first run on the two good lines. -/
def goodFirstSchedule : List Action :=
  [.send, .send, .endScan, .close] ++ soloCopy 8 ++ soloCopy 8 ++ allLeave

/-- A second run on the two good lines. -/
def goodSecondSchedule : List Action :=
  [.send, .send, .endScan, .close] ++ soloCopy 4 ++ soloCopy 4 ++ allLeave

/-- The state a schedule leads to (the start state when it is not enabled). -/
def Pool.after {σ : Type} (P : Params σ) (s : Pool σ) (schedule : List Action) : Pool σ :=
  (s.run P schedule).getD s

/-- The end of the first run on the three lines. -/
def firstEnd : Pool (List (String × String)) :=
  (Pool.init shopParams ["a.png", "b.jpg", "missing.txt"] none []).after shopParams
    firstSchedule

/-- The end of the second run on the three lines. -/
def secondEnd : Pool (List (String × String)) :=
  (Pool.init shopParams ["a.png", "b.jpg", "missing.txt"] none firstEnd.world).after
    shopParams secondSchedule

/-- The end of the first run on the two good lines. -/
def goodFirstEnd : Pool (List (String × String)) :=
  (Pool.init shopParams ["a.png", "b.jpg"] none []).after shopParams goodFirstSchedule

/-- The end of the second run on the two good lines. -/
def goodSecondEnd : Pool (List (String × String)) :=
  (Pool.init shopParams ["a.png", "b.jpg"] none goodFirstEnd.world).after shopParams
    goodSecondSchedule

/-! ## Theorems -/

set_option maxRecDepth 100000

theorem exec_ret {σ : Type} (B : Backend σ) (err : Option String) (w : σ) :
    exec B (.ret err) w = ⟨.returned err, w, []⟩ := rfl

theorem exec_panic {σ : Type} (B : Backend σ) (msg : String) (w : σ) :
    exec B (.panic msg) w = ⟨.panicked msg, w, []⟩ := rfl

theorem exec_call {σ : Type} (B : Backend σ) (c : Call) (k : c.Resp → Prog) (w : σ) :
    exec B (.call c k) w =
      ⟨(exec B (k (B w c).1) (B w c).2).result, (exec B (k (B w c).1) (B w c).2).world,
        ⟨c, (B w c).1⟩ :: (exec B (k (B w c).1) (B w c).2).trace⟩ := rfl


theorem headCalls_nil : headCalls [] = [] := rfl

theorem getCalls_nil : getCalls [] = [] := rfl

theorem putCalls_nil : putCalls [] = [] := rfl

theorem headCalls_cons (c : Call) (r : c.Resp) (t : List Event) :
    headCalls (⟨c, r⟩ :: t) = (Event.head? ⟨c, r⟩).toList ++ headCalls t := by
  unfold headCalls
  rw [List.filterMap_cons]
  cases Event.head? ⟨c, r⟩ <;> rfl

theorem getCalls_cons (c : Call) (r : c.Resp) (t : List Event) :
    getCalls (⟨c, r⟩ :: t) = (Event.get? ⟨c, r⟩).toList ++ getCalls t := by
  unfold getCalls
  rw [List.filterMap_cons]
  cases Event.get? ⟨c, r⟩ <;> rfl

theorem putCalls_cons (c : Call) (r : c.Resp) (t : List Event) :
    putCalls (⟨c, r⟩ :: t) = (Event.put? ⟨c, r⟩).toList ++ putCalls t := by
  unfold putCalls
  rw [List.filterMap_cons]
  cases Event.put? ⟨c, r⟩ <;> rfl

theorem HasSuffix_iff (s suffix : String) :
    HasSuffix s suffix = true ↔ EndsIn s suffix := by
  unfold HasSuffix EndsIn
  constructor
  · intro h
    simp only [Bool.and_eq_true, decide_eq_true_eq, beq_iff_eq] at h
    refine ⟨⟨s.data.take (s.length - suffix.length)⟩, ?_⟩
    apply String.ext
    rw [String.data_append, ← h.2]
    exact (List.take_append_drop _ _).symm
  · rintro ⟨p, rfl⟩
    have hl : (p ++ suffix).length = p.length + suffix.length :=
      String.length_append p suffix
    simp only [Bool.and_eq_true, decide_eq_true_eq, beq_iff_eq, hl, String.data_append]
    refine ⟨Nat.le_add_left _ _, ?_⟩
    rw [Nat.add_sub_cancel]
    exact List.drop_left _ _

/-- The upload request carries the bucket, the key and the bytes it was built
from, and a content-type that obeys the spec's rule. -/
theorem putObjectInput_spec (bucket key : String) (bytes : List Byte)
    (src : GetObjectOutput) :
    ∃ ct, copyObject.putObjectInput bucket key bytes src = ⟨bucket, key, bytes, ct⟩ ∧
      SpecContentType key src.ContentType ct := by
  unfold copyObject.putObjectInput SpecContentType
  simp only [← HasSuffix_iff]
  cases HasSuffix key ".jpg" <;> cases HasSuffix key ".jpeg" <;>
    cases HasSuffix key ".png" <;> simp

/-- The integrity check talks to neither bucket. -/
theorem verify_calls {σ : Type} (B : Backend σ) (w : σ) (key : String) (t : Nat)
    (src : GetObjectOutput) (dst : PutObjectOutput) :
    headCalls (exec B (copyObject.verify key t src dst) w).trace = [] ∧
    getCalls (exec B (copyObject.verify key t src dst) w).trace = [] ∧
    putCalls (exec B (copyObject.verify key t src dst) w).trace = [] := by
  unfold copyObject.verify
  split
  · split <;> simp [exec_ret, exec_panic, exec_call, headCalls_nil, headCalls_cons, Event.head?, getCalls_nil, getCalls_cons, Event.get?, putCalls_nil, putCalls_cons, Event.put?, Option.toList, List.nil_append, List.singleton_append]
  · simp [exec_ret, exec_panic, exec_call, headCalls_nil, headCalls_cons, Event.head?, getCalls_nil, getCalls_cons, Event.get?, putCalls_nil, putCalls_cons, Event.put?, Option.toList, List.nil_append, List.singleton_append]

/-- The calls of the transfer phase: one get on the bucket and key, and one
put exactly when the get and the body read succeeded. -/
theorem transfer_calls {σ : Type} (B : Backend σ) (w : σ) (bucket key : String) :
    headCalls (exec B (copyObject.transfer bucket key) w).trace = [] ∧
    ∃ r, getCalls (exec B (copyObject.transfer bucket key) w).trace
        = [(⟨bucket, key⟩, r)] ∧
      ((∃ src bytes ct pr, r = .ok src ∧ src.Body = .ok bytes ∧
          SpecContentType key src.ContentType ct ∧
          putCalls (exec B (copyObject.transfer bucket key) w).trace
            = [(⟨bucket, key, bytes, ct⟩, pr)]) ∨
       ((∀ src bytes, r = .ok src → src.Body ≠ .ok bytes) ∧
          putCalls (exec B (copyObject.transfer bucket key) w).trace = [])) := by
  simp only [copyObject.transfer, exec_ret, exec_panic, exec_call, headCalls_nil, headCalls_cons, Event.head?, getCalls_nil, getCalls_cons, Event.get?, putCalls_nil, putCalls_cons, Event.put?, Option.toList, List.nil_append, List.singleton_append]
  generalize B w .timeNow = a0
  obtain ⟨t0, w0⟩ := a0
  simp only
  generalize B w0 (.getObject ⟨bucket, key⟩) = a1
  obtain ⟨r1, w1⟩ := a1
  cases r1 with
  | error e => simp [exec_ret, exec_panic, exec_call, headCalls_nil, headCalls_cons, Event.head?, getCalls_nil, getCalls_cons, Event.get?, putCalls_nil, putCalls_cons, Event.put?, Option.toList, List.nil_append, List.singleton_append]
  | ok src =>
    simp only
    cases hb : src.Body with
    | error e =>
      simp only [exec_ret, exec_panic, exec_call, headCalls_nil, headCalls_cons, Event.head?, getCalls_nil, getCalls_cons, Event.get?, putCalls_nil, putCalls_cons, Event.put?, true_and, Option.toList, List.nil_append, List.singleton_append]
      refine ⟨_, rfl, Or.inr ⟨?_, trivial⟩⟩
      intro s b hs
      cases hs
      simp [hb]
    | ok bytes =>
      obtain ⟨ct, hpi, hct⟩ := putObjectInput_spec bucket key bytes src
      simp only [exec_ret, exec_panic, exec_call, headCalls_nil, headCalls_cons, Event.head?, getCalls_nil, getCalls_cons, Event.get?, putCalls_nil, putCalls_cons, Event.put?, Option.toList, List.nil_append, List.singleton_append]
      generalize B w1 (.putObject (copyObject.putObjectInput bucket key bytes src)) = a2
      obtain ⟨r2, w2⟩ := a2
      cases r2 with
      | error e =>
        simp only [exec_ret, exec_panic, exec_call, headCalls_nil, headCalls_cons, Event.head?, getCalls_nil, getCalls_cons, Event.get?, putCalls_nil, putCalls_cons, Event.put?, true_and, hpi, Option.toList, List.nil_append, List.singleton_append]
        exact ⟨_, rfl, Or.inl ⟨src, bytes, ct, _, rfl, hb, hct, rfl⟩⟩
      | ok dst =>
        obtain ⟨h1, h2, h3⟩ := verify_calls B w2 key t0 src dst
        simp only [h1, h2, h3, true_and, hpi]
        exact ⟨_, rfl, Or.inl ⟨src, bytes, ct, _, rfl, hb, hct, rfl⟩⟩

/-- The gets and puts of a whole `copyObject` run: none at all, or those of
one transfer phase, whose outcome is then the outcome of the run. -/
theorem copyObject_calls {σ : Type} (B : Backend σ) (w : σ) (bucket key : String)
    (check : Bool) (old new : ProfileConfig) :
    (getCalls (exec B (copyObject bucket key check old new) w).trace = [] ∧
      putCalls (exec B (copyObject bucket key check old new) w).trace = []) ∨
    ∃ w1, getCalls (exec B (copyObject bucket key check old new) w).trace
          = getCalls (exec B (copyObject.transfer bucket key) w1).trace ∧
        putCalls (exec B (copyObject bucket key check old new) w).trace
          = putCalls (exec B (copyObject.transfer bucket key) w1).trace ∧
        (exec B (copyObject bucket key check old new) w).result
          = (exec B (copyObject.transfer bucket key) w1).result := by
  simp only [copyObject, exec_ret, exec_panic, exec_call]
  generalize B w (.newSession "old" old) = a1
  obtain ⟨_ | e1, w1⟩ := a1 <;> simp only [exec_ret, exec_panic, exec_call, getCalls_nil, getCalls_cons, Event.get?, putCalls_nil, putCalls_cons, Event.put?, Option.toList, List.nil_append, List.singleton_append]
  · generalize B w1 (.newSession "new" new) = a2
    obtain ⟨_ | e2, w2⟩ := a2 <;> simp only [exec_ret, exec_panic, exec_call, getCalls_nil, getCalls_cons, Event.get?, putCalls_nil, putCalls_cons, Event.put?, Option.toList, List.nil_append, List.singleton_append]
    · cases check
      · exact Or.inr ⟨w2, rfl, rfl, rfl⟩
      · simp only [if_true, exec_ret, exec_panic, exec_call, getCalls_nil, getCalls_cons, Event.get?, putCalls_nil, putCalls_cons, Event.put?, Option.toList, List.nil_append, List.singleton_append]
        generalize B w2 (.headObject ⟨bucket, key⟩) = a3
        obtain ⟨_ | e3, w3⟩ := a3 <;> simp only [exec_ret, exec_panic, exec_call, getCalls_nil, getCalls_cons, Event.get?, putCalls_nil, putCalls_cons, Event.put?, Option.toList, List.nil_append, List.singleton_append]
        · exact Or.inl ⟨trivial, trivial⟩
        · exact Or.inr ⟨w3, rfl, rfl, rfl⟩
    · exact Or.inl ⟨trivial, trivial⟩
  · exact Or.inl ⟨trivial, trivial⟩

/-- When the get and the put of a transfer phase both succeeded, its outcome
is the outcome of the integrity check on the two answers. -/
theorem transfer_result {σ : Type} (B : Backend σ) (w : σ) (bucket key : String)
    (gi : GetObjectInput) (src : GetObjectOutput)
    (pi : PutObjectInput) (dst : PutObjectOutput)
    (hget : (gi, Res.ok src) ∈ getCalls (exec B (copyObject.transfer bucket key) w).trace)
    (hput : (pi, Res.ok dst) ∈ putCalls (exec B (copyObject.transfer bucket key) w).trace) :
    ∃ t w1, (exec B (copyObject.transfer bucket key) w).result
      = (exec B (copyObject.verify key t src dst) w1).result := by
  simp only [copyObject.transfer, exec_ret, exec_panic, exec_call, getCalls_nil, getCalls_cons, Event.get?, putCalls_nil, putCalls_cons, Event.put?, Option.toList, List.nil_append, List.singleton_append] at hget hput ⊢
  generalize B w .timeNow = a0 at hget hput ⊢
  obtain ⟨t0, w0⟩ := a0
  simp only at hget hput ⊢
  generalize B w0 (.getObject ⟨bucket, key⟩) = a1 at hget hput ⊢
  obtain ⟨r1, w1⟩ := a1
  cases r1 with
  | error e => simp [exec_ret, exec_panic, exec_call, putCalls_nil, putCalls_cons, Event.put?, Option.toList, List.nil_append, List.singleton_append] at hput
  | ok src1 =>
    simp only at hget hput ⊢
    cases hb : src1.Body with
    | error e => simp [hb, exec_ret, exec_panic, exec_call, putCalls_nil, putCalls_cons, Event.put?, Option.toList, List.nil_append, List.singleton_append] at hput
    | ok bytes =>
      simp only [hb, exec_ret, exec_panic, exec_call, getCalls_nil, getCalls_cons, Event.get?, putCalls_nil, putCalls_cons, Event.put?, Option.toList, List.nil_append, List.singleton_append] at hget hput ⊢
      generalize B w1 (.putObject (copyObject.putObjectInput bucket key bytes src1)) = a2
        at hget hput ⊢
      obtain ⟨r2, w2⟩ := a2
      cases r2 with
      | error e => simp [exec_ret, exec_panic, exec_call, putCalls_nil, putCalls_cons, Event.put?, Option.toList, List.nil_append, List.singleton_append] at hput
      | ok dst1 =>
        obtain ⟨_, h2, h3⟩ := verify_calls B w2 key t0 src1 dst1
        simp only [h2, h3, List.mem_singleton, Prod.mk.injEq, Res.ok.injEq] at hget hput
        obtain ⟨-, rfl⟩ := hget
        obtain ⟨-, rfl⟩ := hput
        exact ⟨t0, w2, rfl⟩

/-- Equal entity tags: the integrity check returns success. -/
theorem verify_equal {σ : Type} (B : Backend σ) (w : σ) (key : String) (t : Nat)
    (src : GetObjectOutput) (dst : PutObjectOutput) (a : String)
    (hs : src.ETag = some a) (hd : dst.ETag = some a) :
    (exec B (copyObject.verify key t src dst) w).result = .returned none := by
  simp [copyObject.verify, hs, hd, exec_ret, exec_panic, exec_call]

/-- Different entity tags: the integrity check returns the mismatch error. -/
theorem verify_differ {σ : Type} (B : Backend σ) (w : σ) (key : String) (t : Nat)
    (src : GetObjectOutput) (dst : PutObjectOutput) (a b : String)
    (hs : src.ETag = some a) (hd : dst.ETag = some b) (hab : a ≠ b) :
    (exec B (copyObject.verify key t src dst) w).result
      = .returned (some ("[" ++ key ++ "] ETags don't match after copy: "
          ++ a ++ " != " ++ b)) := by
  simp [copyObject.verify, hs, hd, exec_ret, exec_panic, exec_call, hab]

/-- An absent entity tag on either side: the integrity check panics. -/
theorem verify_absent {σ : Type} (B : Backend σ) (w : σ) (key : String) (t : Nat)
    (src : GetObjectOutput) (dst : PutObjectOutput)
    (h : src.ETag = none ∨ dst.ETag = none) :
    (exec B (copyObject.verify key t src dst) w).result
      = .panicked "runtime error: invalid memory address or nil pointer dereference" := by
  unfold copyObject.verify
  split
  · rename_i hs hd
    rcases h with h | h
    · rw [h] at hs
      cases hs
    · rw [h] at hd
      cases hd
  · rfl

/-- Every error the integrity check returns is the mismatch error. -/
theorem verify_errors {σ : Type} (B : Backend σ) (w : σ) (key : String) (t : Nat)
    (src : GetObjectOutput) (dst : PutObjectOutput) (msg : String)
    (h : (exec B (copyObject.verify key t src dst) w).result = .returned (some msg)) :
    ∃ a b, msg = "[" ++ key ++ "] ETags don't match after copy: " ++ a ++ " != " ++ b := by
  unfold copyObject.verify at h
  split at h
  · rename_i a b _ _
    split at h
    · simp only [exec_ret, Outcome.returned.injEq, Option.some.injEq] at h
      exact ⟨a, b, h.symm⟩
    · simp [exec_ret, exec_call] at h
  · simp [exec_panic] at h

/-- Every error the transfer phase returns has one of four forms; the
body-read error is the one that does not carry the key. -/
theorem transfer_errors {σ : Type} (B : Backend σ) (w : σ) (bucket key msg : String)
    (h : (exec B (copyObject.transfer bucket key) w).result = .returned (some msg)) :
    (∃ e, msg = "[" ++ key ++ "] failed to get object from old profile: " ++ e) ∨
    (∃ e, msg = "failed to read object body: " ++ e) ∨
    (∃ e, msg = "[" ++ key ++ "] failed to put object to new profile: " ++ e) ∨
    (∃ a b, msg = "[" ++ key ++ "] ETags don't match after copy: " ++ a ++ " != " ++ b) := by
  simp only [copyObject.transfer, exec_call] at h
  generalize B w .timeNow = a0 at h
  obtain ⟨t0, w0⟩ := a0
  simp only at h
  generalize B w0 (.getObject ⟨bucket, key⟩) = a1 at h
  obtain ⟨r1, w1⟩ := a1
  cases r1 with
  | error e =>
    simp only [exec_ret, Outcome.returned.injEq, Option.some.injEq] at h
    exact Or.inl ⟨e, h.symm⟩
  | ok src =>
    simp only at h
    cases hb : src.Body with
    | error e =>
      simp only [hb, exec_ret, Outcome.returned.injEq, Option.some.injEq] at h
      exact Or.inr (Or.inl ⟨e, h.symm⟩)
    | ok bytes =>
      simp only [hb, exec_call] at h
      generalize B w1 (.putObject (copyObject.putObjectInput bucket key bytes src)) = a2 at h
      obtain ⟨r2, w2⟩ := a2
      cases r2 with
      | error e =>
        simp only [exec_ret, Outcome.returned.injEq, Option.some.injEq] at h
        exact Or.inr (Or.inr (Or.inl ⟨e, h.symm⟩))
      | ok dst => exact Or.inr (Or.inr (Or.inr (verify_errors B w2 key t0 src dst msg h)))

/-- Every error `copyObject` returns has one of six forms: the two
session-creation errors and the body-read error do not carry the key, the
other three start with it in brackets. -/
theorem copyObject_errors {σ : Type} (B : Backend σ) (w : σ) (bucket key : String)
    (check : Bool) (old new : ProfileConfig) (msg : String)
    (h : (exec B (copyObject bucket key check old new) w).result = .returned (some msg)) :
    (∃ e, msg = "failed to create session for old profile: " ++ e) ∨
    (∃ e, msg = "failed to create session for new profile: " ++ e) ∨
    (∃ e, msg = "[" ++ key ++ "] failed to get object from old profile: " ++ e) ∨
    (∃ e, msg = "failed to read object body: " ++ e) ∨
    (∃ e, msg = "[" ++ key ++ "] failed to put object to new profile: " ++ e) ∨
    (∃ a b, msg = "[" ++ key ++ "] ETags don't match after copy: " ++ a ++ " != " ++ b) := by
  simp only [copyObject, exec_call] at h
  generalize B w (.newSession "old" old) = a1 at h
  obtain ⟨_ | e1, w1⟩ := a1
  · simp only [exec_call] at h
    generalize B w1 (.newSession "new" new) = a2 at h
    obtain ⟨_ | e2, w2⟩ := a2
    · simp only at h
      cases check
      · exact Or.inr (Or.inr (transfer_errors B w2 bucket key msg h))
      · simp only [if_true, exec_call] at h
        generalize B w2 (.headObject ⟨bucket, key⟩) = a3 at h
        obtain ⟨_ | e3, w3⟩ := a3
        · simp [exec_ret, exec_call] at h
        · exact Or.inr (Or.inr (transfer_errors B w3 bucket key msg h))
    · simp only [exec_ret, Outcome.returned.injEq, Option.some.injEq] at h
      exact Or.inr (Or.inl ⟨e2, h.symm⟩)
  · simp only [exec_ret, Outcome.returned.injEq, Option.some.injEq] at h
    exact Or.inl ⟨e1, h.symm⟩

/-- C2: whenever the source get and the body read of a `copyObject` run
succeeded, the run issued exactly one get and exactly one destination put,
both on the bucket and key `copyObject` was called with, and the put carries
exactly the bytes the get returned. -/
theorem copyObject_put_once {σ : Type} (B : Backend σ) (w : σ) (bucket key : String)
    (check : Bool) (old new : ProfileConfig)
    (gi : GetObjectInput) (src : GetObjectOutput) (bytes : List Byte)
    (hget : (gi, Res.ok src) ∈
      getCalls (exec B (copyObject bucket key check old new) w).trace)
    (hbody : src.Body = .ok bytes) :
    getCalls (exec B (copyObject bucket key check old new) w).trace
        = [(gi, .ok src)] ∧
    ∃ pi pr, putCalls (exec B (copyObject bucket key check old new) w).trace
        = [(pi, pr)] ∧
      pi.Bucket = gi.Bucket ∧ pi.Key = gi.Key ∧ pi.Body = bytes ∧
      gi.Bucket = bucket ∧ gi.Key = key := by
  rcases copyObject_calls B w bucket key check old new with ⟨hg, _⟩ | ⟨w1, hg, hp, _⟩
  · rw [hg] at hget
    cases hget
  · obtain ⟨_, r, hg1, hcase⟩ := transfer_calls B w1 bucket key
    rw [hg, hg1] at hget
    rw [hg, hp, hg1]
    obtain ⟨rfl, rfl⟩ : gi = ⟨bucket, key⟩ ∧ .ok src = r := by
      simpa using hget
    rcases hcase with ⟨src1, bytes1, ct, pr, hr, hb1, _, hput⟩ | ⟨hno, _⟩
    · cases hr
      rw [hbody] at hb1
      cases hb1
      exact ⟨rfl, _, pr, hput, rfl, rfl, rfl, rfl, rfl⟩
    · exact absurd hbody (hno src bytes rfl)

/-- C1: in every `copyObject` run, the content-type of the upload request
follows the spec's rule from the key and the content-type of the source
object: image/jpeg for a key ending in .jpg or .jpeg, else image/png for a
key ending in .png, else the source content-type unchanged. -/
theorem copyObject_contentType {σ : Type} (B : Backend σ) (w : σ) (bucket key : String)
    (check : Bool) (old new : ProfileConfig)
    (gi : GetObjectInput) (src : GetObjectOutput)
    (pi : PutObjectInput) (pr : Res PutObjectOutput)
    (hget : (gi, Res.ok src) ∈
      getCalls (exec B (copyObject bucket key check old new) w).trace)
    (hput : (pi, pr) ∈
      putCalls (exec B (copyObject bucket key check old new) w).trace) :
    SpecContentType key src.ContentType pi.ContentType := by
  rcases copyObject_calls B w bucket key check old new with ⟨hg, _⟩ | ⟨w1, hg, hp, _⟩
  · rw [hg] at hget
    cases hget
  · obtain ⟨_, r, hg1, hcase⟩ := transfer_calls B w1 bucket key
    rw [hg, hg1] at hget
    rw [hp] at hput
    obtain ⟨-, rfl⟩ : gi = ⟨bucket, key⟩ ∧ .ok src = r := by
      simpa using hget
    rcases hcase with ⟨src1, bytes1, ct, pr1, hr, _, hct, hput1⟩ | ⟨_, hnone⟩
    · cases hr
      rw [hput1] at hput
      obtain ⟨rfl, -⟩ : pi = ⟨bucket, key, bytes1, ct⟩ ∧ pr = pr1 := by
        simpa using hput
      exact hct
    · rw [hnone] at hput
      cases hput

/-- The integrity check on present tags: whenever the source get and the
destination put of a `copyObject` run both succeeded and both answers carry an
entity tag, the run returns success exactly when the two tags are equal, and
when they differ it returns the mismatch error, whose message names the key
and both tags. -/
theorem copyObject_integrity {σ : Type} (B : Backend σ) (w : σ) (bucket key : String)
    (check : Bool) (old new : ProfileConfig)
    (gi : GetObjectInput) (src : GetObjectOutput)
    (pi : PutObjectInput) (dst : PutObjectOutput) (a b : String)
    (hget : (gi, Res.ok src) ∈
      getCalls (exec B (copyObject bucket key check old new) w).trace)
    (hput : (pi, Res.ok dst) ∈
      putCalls (exec B (copyObject bucket key check old new) w).trace)
    (hs : src.ETag = some a) (hd : dst.ETag = some b) :
    ((exec B (copyObject bucket key check old new) w).result = .returned none ↔ a = b) ∧
    (a ≠ b → ∃ msg,
      (exec B (copyObject bucket key check old new) w).result = .returned (some msg) ∧
      msg = "[" ++ key ++ "] ETags don't match after copy: " ++ a ++ " != " ++ b ∧
      Names msg key ∧ Names msg a ∧ Names msg b) := by
  rcases copyObject_calls B w bucket key check old new with ⟨hg, _⟩ | ⟨w1, hg, hp, hr⟩
  · rw [hg] at hget
    cases hget
  · rw [hg] at hget
    rw [hp] at hput
    obtain ⟨t, w2, hres⟩ := transfer_result B w1 bucket key gi src pi dst hget hput
    rw [hr, hres]
    constructor
    · constructor
      · intro h
        by_contra hab
        rw [verify_differ B w2 key t src dst a b hs hd hab] at h
        cases h
      · rintro rfl
        exact verify_equal B w2 key t src dst a hs hd
    · intro hab
      refine ⟨_, verify_differ B w2 key t src dst a b hs hd hab, rfl, ?_, ?_, ?_⟩
      · exact ⟨"[", "] ETags don't match after copy: " ++ a ++ " != " ++ b, by
          simp only [String.append_assoc]⟩
      · exact ⟨"[" ++ key ++ "] ETags don't match after copy: ", " != " ++ b, by
          simp only [String.append_assoc]⟩
      · exact ⟨"[" ++ key ++ "] ETags don't match after copy: " ++ a ++ " != ", "", by
          simp only [String.append_assoc, String.append_empty]⟩

/-- C4: whenever the head probe of a `copyObject` run succeeded, the
existence check was enabled and the run is the skip path: it returns success,
its calls are the two session creations, the probe and the skip line, it
issues no source get and no destination put, and over a backend in which only
gets and puts alter the world it leaves the world as it found it. -/
theorem copyObject_skip {σ : Type} (B : Backend σ) (w : σ) (bucket key : String)
    (check : Bool) (old new : ProfileConfig) (hi : HeadObjectInput)
    (hhead : (hi, Res.ok ()) ∈
      headCalls (exec B (copyObject bucket key check old new) w).trace) :
    check = true ∧ hi = ⟨bucket, key⟩ ∧
    (exec B (copyObject bucket key check old new) w).result = .returned none ∧
    (exec B (copyObject bucket key check old new) w).trace =
      [⟨.newSession "old" old, none⟩, ⟨.newSession "new" new, none⟩,
       ⟨.headObject ⟨bucket, key⟩, Res.ok ()⟩,
       ⟨.print ("[" ++ key ++ "] already exists in the destination bucket. Skipping copy.\n"),
         ()⟩] ∧
    getCalls (exec B (copyObject bucket key check old new) w).trace = [] ∧
    putCalls (exec B (copyObject bucket key check old new) w).trace = [] ∧
    ((∀ w1 c, Call.movesData c = false → (B w1 c).2 = w1) →
      (exec B (copyObject bucket key check old new) w).world = w) := by
  simp only [copyObject, exec_ret, exec_panic, exec_call] at hhead ⊢
  generalize h1 : B w (.newSession "old" old) = a1 at hhead ⊢
  obtain ⟨_ | e1, w1⟩ := a1 <;> simp only [exec_ret, exec_panic, exec_call, headCalls_nil, headCalls_cons, Event.head?, getCalls_nil, getCalls_cons, Event.get?, putCalls_nil, putCalls_cons, Event.put?, Option.toList, List.nil_append, List.singleton_append] at hhead ⊢
  · generalize h2 : B w1 (.newSession "new" new) = a2 at hhead ⊢
    obtain ⟨_ | e2, w2⟩ := a2 <;>
      simp only [exec_ret, exec_panic, exec_call, headCalls_nil, headCalls_cons, Event.head?, getCalls_nil, getCalls_cons, Event.get?, putCalls_nil, putCalls_cons, Event.put?, Option.toList, List.nil_append, List.singleton_append] at hhead ⊢
    · cases check
      · have h := (transfer_calls B w2 bucket key).1
        simp only [Bool.false_eq_true, if_false] at hhead
        rw [h] at hhead
        cases hhead
      · simp only [if_true, exec_ret, exec_panic, exec_call, headCalls_nil, headCalls_cons, Event.head?, getCalls_nil, getCalls_cons, Event.get?, putCalls_nil, putCalls_cons, Event.put?, Option.toList, List.nil_append, List.singleton_append] at hhead ⊢
        generalize h3 : B w2 (.headObject ⟨bucket, key⟩) = a3 at hhead ⊢
        obtain ⟨_ | e3, w3⟩ := a3 <;>
          simp only [exec_ret, exec_panic, exec_call, headCalls_nil, headCalls_cons, Event.head?, getCalls_nil, getCalls_cons, Event.get?, putCalls_nil, putCalls_cons, Event.put?, Option.toList, List.nil_append, List.singleton_append] at hhead ⊢
        · simp only [List.mem_singleton, Prod.mk.injEq, and_true] at hhead
          refine ⟨trivial, hhead, trivial, trivial, trivial, trivial, ?_⟩
          intro hframe
          have e1 := hframe w (.newSession "old" old) rfl
          have e2 := hframe w1 (.newSession "new" new) rfl
          have e3 := hframe w2 (.headObject ⟨bucket, key⟩) rfl
          rw [h1] at e1
          rw [h2] at e2
          rw [h3] at e3
          simp only at e1 e2 e3
          rw [hframe, e3, e2, e1]
          rfl
        · have h := (transfer_calls B w3 bucket key).1
          rw [h] at hhead
          simp at hhead
    · cases hhead
  · cases hhead

/-- Whenever the head probe of a `copyObject` run with the existence check
enabled failed, over a backend in which a probe that fails leaves the world
as it found it, the run has the result, the gets, the puts and the final
world of the run with the check disabled, and its calls are those of that
run with the failed probe put after the two session creations. -/
theorem probe_failure_as_unchecked {σ : Type} (B : Backend σ) (w : σ)
    (bucket key : String) (old new : ProfileConfig) (hi : HeadObjectInput) (e : String)
    (hhead : (hi, Res.error e) ∈
      headCalls (exec B (copyObject bucket key true old new) w).trace)
    (hprobe : ∀ w1 i e1, (B w1 (.headObject i)).1 = .error e1 →
      (B w1 (.headObject i)).2 = w1) :
    (exec B (copyObject bucket key true old new) w).result
      = (exec B (copyObject bucket key false old new) w).result ∧
    getCalls (exec B (copyObject bucket key true old new) w).trace
      = getCalls (exec B (copyObject bucket key false old new) w).trace ∧
    putCalls (exec B (copyObject bucket key true old new) w).trace
      = putCalls (exec B (copyObject bucket key false old new) w).trace ∧
    (exec B (copyObject bucket key true old new) w).world
      = (exec B (copyObject bucket key false old new) w).world ∧
    ∃ rest, (exec B (copyObject bucket key false old new) w).trace
        = ⟨.newSession "old" old, none⟩ :: ⟨.newSession "new" new, none⟩ :: rest ∧
      (exec B (copyObject bucket key true old new) w).trace
        = ⟨.newSession "old" old, none⟩ :: ⟨.newSession "new" new, none⟩ ::
          ⟨.headObject ⟨bucket, key⟩, Res.error e⟩ :: rest := by
  simp only [copyObject, exec_call] at hhead ⊢
  generalize B w (.newSession "old" old) = a1 at hhead ⊢
  obtain ⟨_ | e1, w1⟩ := a1 <;>
    simp only [exec_ret, exec_call, headCalls_nil, headCalls_cons, Event.head?,
      Option.toList, List.nil_append, List.singleton_append] at hhead ⊢
  · generalize B w1 (.newSession "new" new) = a2 at hhead ⊢
    obtain ⟨_ | e2, w2⟩ := a2 <;>
      simp only [exec_ret, exec_call, headCalls_nil, headCalls_cons, Event.head?,
        Option.toList, List.nil_append, List.singleton_append, if_true] at hhead ⊢
    · have hw := hprobe w2 ⟨bucket, key⟩
      generalize B w2 (.headObject ⟨bucket, key⟩) = a3 at hhead hw ⊢
      obtain ⟨_ | e3, w3⟩ := a3 <;>
        simp only [exec_ret, exec_call, headCalls_nil, headCalls_cons, Event.head?,
          Option.toList, List.nil_append, List.singleton_append] at hhead hw ⊢
      · simp at hhead
      · have hw := hw e3 rfl
        subst hw
        rw [(transfer_calls B w3 bucket key).1] at hhead
        simp only [List.mem_singleton, Prod.mk.injEq, Res.error.injEq] at hhead
        obtain ⟨-, rfl⟩ := hhead
        simp only [Bool.false_eq_true, if_false, getCalls_cons, putCalls_cons, Event.get?,
          Event.put?, Option.toList, List.nil_append, true_and]
        exact ⟨_, rfl, rfl⟩
    · cases hhead
  · cases hhead

/-- Whenever the head probe of a `copyObject` run with the existence check
enabled failed, the run goes on with the transfer phase: from the probe on
it is a run of that phase. -/
theorem probe_failure_proceeds {σ : Type} (B : Backend σ) (w : σ)
    (bucket key : String) (old new : ProfileConfig) (hi : HeadObjectInput) (e : String)
    (hhead : (hi, Res.error e) ∈
      headCalls (exec B (copyObject bucket key true old new) w).trace) :
    ∃ w3, (exec B (copyObject bucket key true old new) w).result
        = (exec B (copyObject.transfer bucket key) w3).result ∧
      getCalls (exec B (copyObject bucket key true old new) w).trace
        = getCalls (exec B (copyObject.transfer bucket key) w3).trace ∧
      putCalls (exec B (copyObject bucket key true old new) w).trace
        = putCalls (exec B (copyObject.transfer bucket key) w3).trace := by
  simp only [copyObject, exec_call] at hhead ⊢
  generalize B w (.newSession "old" old) = a1 at hhead ⊢
  obtain ⟨_ | e1, w1⟩ := a1 <;>
    simp only [exec_ret, exec_call, headCalls_nil, headCalls_cons, Event.head?,
      Option.toList, List.nil_append, List.singleton_append] at hhead ⊢
  · generalize B w1 (.newSession "new" new) = a2 at hhead ⊢
    obtain ⟨_ | e2, w2⟩ := a2 <;>
      simp only [exec_ret, exec_call, headCalls_nil, headCalls_cons, Event.head?,
        Option.toList, List.nil_append, List.singleton_append, if_true] at hhead ⊢
    · generalize B w2 (.headObject ⟨bucket, key⟩) = a3 at hhead ⊢
      obtain ⟨_ | e3, w3⟩ := a3 <;>
        simp only [exec_ret, exec_call, headCalls_nil, headCalls_cons, Event.head?,
          Option.toList, List.nil_append, List.singleton_append] at hhead ⊢
      · simp at hhead
      · simp only [getCalls_cons, putCalls_cons, Event.get?, Event.put?, Option.toList,
          List.nil_append]
        exact ⟨w3, rfl, rfl, rfl⟩
    · cases hhead
  · cases hhead

/-- C5: whenever the head probe of a `copyObject` run with the existence check
enabled failed, with whatever error, over a backend in which a probe that
fails leaves the world as it found it, the run proceeds to copy and is the run
with the check disabled. It has the result, the gets, the puts and the final
world of `copyObject` run with the check disabled on the same inputs, and its
calls are those of that run with the failed probe put after the two session
creations. It issues the source get, once, on the bucket and key; it issues
the destination put, once, with the bytes of the get, exactly when the get and
the body read succeeded. An error it returns is one of the four errors of the
transfer, made from the error of the get, of the body read or of the put or
from the two entity tags, never from the error of the probe. -/
theorem copyObject_probe_failure {σ : Type} (B : Backend σ) (w : σ)
    (bucket key : String) (old new : ProfileConfig) (hi : HeadObjectInput) (e : String)
    (hhead : (hi, Res.error e) ∈
      headCalls (exec B (copyObject bucket key true old new) w).trace)
    (hprobe : ∀ w1 i e1, (B w1 (.headObject i)).1 = .error e1 →
      (B w1 (.headObject i)).2 = w1) :
    (exec B (copyObject bucket key true old new) w).result
      = (exec B (copyObject bucket key false old new) w).result ∧
    getCalls (exec B (copyObject bucket key true old new) w).trace
      = getCalls (exec B (copyObject bucket key false old new) w).trace ∧
    putCalls (exec B (copyObject bucket key true old new) w).trace
      = putCalls (exec B (copyObject bucket key false old new) w).trace ∧
    (exec B (copyObject bucket key true old new) w).world
      = (exec B (copyObject bucket key false old new) w).world ∧
    (∃ rest, (exec B (copyObject bucket key false old new) w).trace
        = ⟨.newSession "old" old, none⟩ :: ⟨.newSession "new" new, none⟩ :: rest ∧
      (exec B (copyObject bucket key true old new) w).trace
        = ⟨.newSession "old" old, none⟩ :: ⟨.newSession "new" new, none⟩ ::
          ⟨.headObject ⟨bucket, key⟩, Res.error e⟩ :: rest) ∧
    (∃ r, getCalls (exec B (copyObject bucket key true old new) w).trace
        = [(⟨bucket, key⟩, r)] ∧
      ((∃ src bytes ct pr, r = .ok src ∧ src.Body = .ok bytes ∧
          SpecContentType key src.ContentType ct ∧
          putCalls (exec B (copyObject bucket key true old new) w).trace
            = [(⟨bucket, key, bytes, ct⟩, pr)]) ∨
       ((∀ src bytes, r = .ok src → src.Body ≠ .ok bytes) ∧
          putCalls (exec B (copyObject bucket key true old new) w).trace = []))) ∧
    (∀ msg, (exec B (copyObject bucket key true old new) w).result
        = .returned (some msg) →
      (∃ e1, msg = "[" ++ key ++ "] failed to get object from old profile: " ++ e1) ∨
      (∃ e1, msg = "failed to read object body: " ++ e1) ∨
      (∃ e1, msg = "[" ++ key ++ "] failed to put object to new profile: " ++ e1) ∨
      (∃ a b, msg = "[" ++ key ++ "] ETags don't match after copy: "
        ++ a ++ " != " ++ b)) := by
  obtain ⟨h1, h2, h3, h4, h5⟩ :=
    probe_failure_as_unchecked B w bucket key old new hi e hhead hprobe
  obtain ⟨w3, hr, hg, hp⟩ := probe_failure_proceeds B w bucket key old new hi e hhead
  refine ⟨h1, h2, h3, h4, h5, ?_, ?_⟩
  · obtain ⟨_, r, hget, hcase⟩ := transfer_calls B w3 bucket key
    rw [hg, hp]
    exact ⟨r, hget, hcase⟩
  · intro msg hmsg
    rw [hr] at hmsg
    exact transfer_errors B w3 bucket key msg hmsg

/-! ### The pool -/

theorem filterMap_set_perm {α β : Type} (f : α → Option β) (l : List α) (i : Nat)
    (a b : α) (h : l[i]? = some a) :
    ((l.set i b).filterMap f ++ (f a).toList).Perm (l.filterMap f ++ (f b).toList) := by
  induction l generalizing i with
  | nil => simp at h
  | cons x xs ih =>
    cases i with
    | zero =>
      simp only [List.getElem?_cons_zero, Option.some.injEq] at h
      subst h
      simp only [List.set_cons_zero, List.filterMap_cons]
      cases f x with
      | none =>
        cases f b with
        | none => simp
        | some v =>
          simp only [Option.toList, List.append_nil]
          have h : ([v] ++ List.filterMap f xs).Perm (List.filterMap f xs ++ [v]) :=
            List.perm_append_comm
          exact h
      | some u =>
        cases f b with
        | none => simp
        | some v =>
          simp only [Option.toList, List.cons_append]
          have h1 : (List.filterMap f xs ++ [v]).Perm ([v] ++ List.filterMap f xs) :=
            List.perm_append_comm
          have h2 : (List.filterMap f xs ++ [u]).Perm ([u] ++ List.filterMap f xs) :=
            List.perm_append_comm
          exact ((h2.cons v).trans (List.Perm.swap u v _)).trans (h1.symm.cons u)
    | succ j =>
      simp only [List.getElem?_cons_succ] at h
      simp only [List.set_cons_succ, List.filterMap_cons]
      have := ih j h
      cases f x <;> simp [this]

theorem Pool.init_inv {σ : Type} (P : Params σ) (lines : List String)
    (scanErr : Option String) (w : σ) : (Pool.init P lines scanErr w).Inv P lines := by
  refine ⟨?_, ?_, ?_, ?_, ?_⟩
  · simp [Pool.init]
  · simp [Pool.init]
  · rintro ⟨wk, hwk, hd⟩
    simp only [Pool.init, List.mem_replicate] at hwk
    rw [hwk.2] at hd
    cases hd
  · simp [Pool.init]
  · simp [Pool.init, Pool.inFlight, List.filterMap_replicate, Worker.line?]

/-- Every enabled action of `Pool.step` is a step of the relation. -/
theorem Pool.step_sound {σ : Type} (P : Params σ) (s t : Pool σ) (a : Action)
    (h : s.step P a = some t) : Pool.Step P s t := by
  cases a with
  | send =>
    simp only [Pool.step] at h
    split at h
    · split at h
      · cases h
        rename_i h2 h3 h4
        exact .send _ _ h2 h3 h4
      · cases h
    · cases h
  | endScan =>
    simp only [Pool.step] at h
    split at h
    · split at h
      · cases h
        rename_i h2 h3 _ _ h4
        exact .endScanErr _ h2 h3 h4
      · cases h
        rename_i h2 h3 _ h4
        exact .endScan h2 h3 h4
    · cases h
  | close =>
    simp only [Pool.step] at h
    split at h
    · cases h
      rename_i h2
      exact .close h2
    · cases h
  | receive i =>
    simp only [Pool.step] at h
    split at h
    · cases h
      rename_i h2 h3
      exact .receive i _ _ h2 h3
    · cases h
  | advance i =>
    simp only [Pool.step] at h
    split at h
    · cases h
      rename_i h2
      exact .advance i _ _ _ h2
    · cases h
  | finish i =>
    simp only [Pool.step] at h
    split at h
    · rename_i line err h2
      cases err with
      | none =>
        cases h
        exact .finishOk i _ h2
      | some e =>
        cases h
        exact .finishErr i _ e h2
    · cases h
  | crash i =>
    simp only [Pool.step] at h
    split at h
    · cases h
      rename_i h2
      exact .crash i _ _ h2
    · cases h
  | leave i =>
    simp only [Pool.step] at h
    split at h
    · cases h
      rename_i h2 h3 h4
      exact .leave i h2 h3 h4
    · cases h

theorem mem_set_isDone {ws : List Worker} {i : Nat} {b : Worker}
    (h : ∃ wk ∈ ws.set i b, wk.isDone = true) (hb : b.isDone = false) :
    ∃ wk ∈ ws, wk.isDone = true := by
  obtain ⟨wk, hwk, hd⟩ := h
  rcases List.mem_or_eq_of_mem_set hwk with hmem | rfl
  · exact ⟨wk, hmem, hd⟩
  · rw [hb] at hd
    cases hd

theorem inFlight_set {ws : List Worker} {i : Nat} {a : Worker} (b : Worker)
    (h : ws[i]? = some a) (x : String) :
    ((ws.set i b).filterMap Worker.line?).count x + a.line?.toList.count x =
      (ws.filterMap Worker.line?).count x + b.line?.toList.count x := by
  have := (filterMap_set_perm Worker.line? ws i a b h).count_eq x
  simpa only [List.count_append] using this

/-- Every step of the pool keeps the invariant. -/
theorem Pool.Step.inv {σ : Type} {P : Params σ} {lines : List String} {s t : Pool σ}
    (hinv : s.Inv P lines) (h : Pool.Step P s t) : t.Inv P lines := by
  obtain ⟨hperm, hscan, hdrain, hsize, hflight⟩ := hinv
  rw [List.perm_iff_count] at hperm hflight
  cases h with
  | send line rest h2 h3 h4 =>
    refine ⟨?_, ?_, ?_, hsize, List.perm_iff_count.mpr hflight⟩
    · rw [List.perm_iff_count]
      intro x
      have := hperm x
      rw [h3] at this
      simp only [List.count_append, List.count_cons, List.count_nil] at this ⊢
      omega
    · intro hf
      exact absurd h2 hf
    · intro hd
      have := (hdrain hd).1
      rw [h2] at this
      cases this
  | endScanErr err h2 h3 h4 =>
    refine ⟨List.perm_iff_count.mpr hperm, fun _ => h3, ?_, hsize,
      List.perm_iff_count.mpr hflight⟩
    intro hd
    have := (hdrain hd).1
    rw [h2] at this
    cases this
  | endScan h2 h3 h4 =>
    refine ⟨List.perm_iff_count.mpr hperm, fun _ => h3, ?_, hsize,
      List.perm_iff_count.mpr hflight⟩
    intro hd
    have := (hdrain hd).1
    rw [h2] at this
    cases this
  | close h2 =>
    refine ⟨List.perm_iff_count.mpr hperm, ?_, ?_, hsize, List.perm_iff_count.mpr hflight⟩
    · intro _
      exact hscan (by rw [h2]; decide)
    · intro hd
      have := (hdrain hd).1
      rw [h2] at this
      cases this
  | receive i line rest h2 h3 =>
    refine ⟨?_, hscan, ?_, ?_, ?_⟩
    · rw [List.perm_iff_count]
      intro x
      have := hperm x
      rw [h3] at this
      simp only [List.count_append, List.count_cons, List.count_nil] at this ⊢
      omega
    · intro hd
      have := (hdrain (mem_set_isDone hd rfl)).2
      rw [h3] at this
      cases this
    · simpa using hsize
    · rw [List.perm_iff_count]
      intro x
      have hset := inFlight_set (.copying line
        (copyObject P.bucket line P.checkExistence P.config.OldProfile P.config.NewProfile))
        h2 x
      have := hflight x
      simp only [Pool.inFlight, Worker.line?, Option.toList, List.count_append,
        List.count_cons, List.count_nil] at hset this ⊢
      omega
  | advance i line c k h2 =>
    refine ⟨List.perm_iff_count.mpr hperm, hscan, ?_, ?_, ?_⟩
    · intro hd
      exact hdrain (mem_set_isDone hd rfl)
    · simpa using hsize
    · rw [List.perm_iff_count]
      intro x
      have hset := inFlight_set (.copying line (k (P.backend s.world c).1)) h2 x
      have := hflight x
      simp only [Pool.inFlight, Worker.line?, Option.toList, List.count_append,
        List.count_cons, List.count_nil] at hset this ⊢
      omega
  | finishOk i line h2 =>
    refine ⟨List.perm_iff_count.mpr hperm, hscan, ?_, ?_, ?_⟩
    · intro hd
      exact hdrain (mem_set_isDone hd rfl)
    · simpa using hsize
    · rw [List.perm_iff_count]
      intro x
      have hset := inFlight_set .waiting h2 x
      have := hflight x
      simp only [Pool.inFlight, Worker.line?, Option.toList, List.count_append,
        List.count_cons, List.count_nil, List.map_cons] at hset this ⊢
      omega
  | finishErr i line e h2 =>
    refine ⟨List.perm_iff_count.mpr hperm, hscan, ?_, ?_, ?_⟩
    · intro hd
      exact hdrain (mem_set_isDone hd rfl)
    · simpa using hsize
    · rw [List.perm_iff_count]
      intro x
      have hset := inFlight_set .waiting h2 x
      have := hflight x
      simp only [Pool.inFlight, Worker.line?, Option.toList, List.count_append,
        List.count_cons, List.count_nil, List.map_cons] at hset this ⊢
      omega
  | crash i line msg h2 =>
    refine ⟨List.perm_iff_count.mpr hperm, hscan, ?_, ?_, ?_⟩
    · intro hd
      exact hdrain (mem_set_isDone hd rfl)
    · simpa using hsize
    · rw [List.perm_iff_count]
      intro x
      have hset := inFlight_set (.panicked line) h2 x
      have := hflight x
      simp only [Pool.inFlight, Worker.line?, Option.toList, List.count_append,
        List.count_cons, List.count_nil] at hset this ⊢
      omega
  | leave i h2 h3 h4 =>
    refine ⟨List.perm_iff_count.mpr hperm, hscan, fun _ => ⟨h3, h4⟩, ?_, ?_⟩
    · simpa using hsize
    · rw [List.perm_iff_count]
      intro x
      have hset := inFlight_set .done h2 x
      have := hflight x
      simp only [Pool.inFlight, Worker.line?, Option.toList, List.count_append,
        List.count_cons, List.count_nil] at hset this ⊢
      omega

/-- A property every step keeps holds all along every interleaving. -/
theorem Reaches.induct {σ : Type} {P : Params σ} (I : Pool σ → Prop)
    (hstep : ∀ s t, I s → Pool.Step P s t → I t) {s t : Pool σ}
    (hs : I s) (h : Reaches P s t) : I t := by
  obtain ⟨schedule, hrun⟩ := h
  induction schedule generalizing s with
  | nil =>
    simp only [Pool.run, Option.some.injEq] at hrun
    exact hrun ▸ hs
  | cons a rest ih =>
    simp only [Pool.run] at hrun
    cases hst : s.step P a with
    | none => simp [hst] at hrun
    | some u =>
      simp only [hst] at hrun
      exact ih (hstep s u hs (Pool.step_sound P s u a hst)) hrun

theorem inFlight_of_all_done (ws : List Worker) (h : ws.all Worker.isDone = true) :
    ws.filterMap Worker.line? = [] := by
  induction ws with
  | nil => rfl
  | cons wk rest ih =>
    simp only [List.all_cons, Bool.and_eq_true] at h
    cases wk with
    | done => simpa [List.filterMap_cons, Worker.line?] using ih h.2
    | waiting => cases h.1
    | copying _ _ => cases h.1
    | panicked _ => cases h.1

/-- In a state the invariant holds in, with at least one worker, once every
worker has left its loop the lines `copyObject` was called with, and the
lines it returned on, are the lines of the file, each as often as it occurs. -/
theorem Pool.Inv.done {σ : Type} {P : Params σ} {lines : List String} {s : Pool σ}
    (hinv : s.Inv P lines) (hpos : 0 < P.numWorkers) (hdone : s.Done) :
    s.invoked.Perm lines ∧ (s.completed.map Prod.fst).Perm lines := by
  obtain ⟨hperm, hscan, hdrain, hsize, hflight⟩ := hinv
  obtain ⟨_, hall⟩ := hdone
  have hex : ∃ wk ∈ s.workers, wk.isDone = true := by
    cases hws : s.workers with
    | nil =>
      rw [hws] at hsize
      simp only [List.length_nil] at hsize
      omega
    | cons wk rest =>
      rw [hws] at hall
      simp only [List.all_cons, Bool.and_eq_true] at hall
      exact ⟨wk, List.mem_cons_self _ _, hall.1⟩
  obtain ⟨hclosed, hchan⟩ := hdrain hex
  have hunread : s.unread = [] := hscan (by rw [hclosed]; decide)
  rw [hunread, hchan] at hperm
  simp only [List.nil_append] at hperm
  refine ⟨hperm, ?_⟩
  have hfl : s.inFlight = [] := inFlight_of_all_done s.workers hall
  rw [hfl, List.append_nil] at hflight
  exact hflight.trans hperm

theorem Unearned_ret {σ : Type} (B : Backend σ) (good : σ → Prop) (err : Option String) :
    Prog.Unearned B good (.ret err) ↔ err ≠ none := Iff.rfl

theorem Unearned_call {σ : Type} (B : Backend σ) (good : σ → Prop) (c : Call)
    (k : c.Resp → Prog) :
    Prog.Unearned B good (.call c k) ↔
      ∀ w, good (B w c).2 ∨ Prog.Unearned B good (k (B w c).1) := Iff.rfl

theorem Skips_ret {σ : Type} (B : Backend σ) (good : σ → Prop) (err : Option String) :
    Prog.Skips B good (.ret err) ↔ err = none := Iff.rfl

theorem Skips_call {σ : Type} (B : Backend σ) (good : σ → Prop) (c : Call)
    (k : c.Resp → Prog) :
    Prog.Skips B good (.call c k) ↔
      (c.movesData = false ∧ ∀ w, good w → Prog.Skips B good (k (B w c).1)) := Iff.rfl

/-- Over durable storage, being ready to skip survives every call. -/
theorem Ready.stable {σ : Type} {P : Params σ} (hB : Durable P.backend) {line : String}
    {w : σ} (h : Ready P line w) (c : Call) : Ready P line (P.backend w c).2 := by
  obtain ⟨h1, h2, h3⟩ := h
  refine ⟨?_, ?_, hB.present_stable w c _ h3⟩
  · rw [hB.session_static _ w]
    exact h1
  · rw [hB.session_static _ w]
    exact h2

/-- With the existence check enabled, `copyObject` on a line that is ready
skips. -/
theorem copyObject_skips {σ : Type} (P : Params σ) (line : String) :
    (copyObject P.bucket line true P.config.OldProfile P.config.NewProfile).Skips
      P.backend (Ready P line) := by
  simp only [copyObject, Skips_call, if_true]
  refine ⟨rfl, fun w hw => ?_⟩
  rw [hw.1]
  simp only [Skips_call]
  refine ⟨rfl, fun w1 hw1 => ?_⟩
  rw [hw1.2.1]
  simp only [Skips_call]
  refine ⟨rfl, fun w2 hw2 => ?_⟩
  rw [hw2.2.2]
  simp only [Skips_call, Skips_ret]
  exact ⟨rfl, fun _ _ => trivial⟩

/-- Over durable storage the transfer phase cannot return success without
leaving its line ready to be skipped. -/
theorem transfer_unearned {σ : Type} (P : Params σ) (hB : Durable P.backend)
    (line : String) (w0 w1 : σ)
    (h0 : (P.backend w0 (.newSession "old" P.config.OldProfile)).1 = none)
    (h1 : (P.backend w1 (.newSession "new" P.config.NewProfile)).1 = none) :
    (copyObject.transfer P.bucket line).Unearned P.backend (Ready P line) := by
  simp only [copyObject.transfer, Unearned_call]
  intro w2
  refine Or.inr fun w3 => Or.inr ?_
  generalize (P.backend w3 (.getObject ⟨P.bucket, line⟩)).1 = got
  cases got with
  | error e => simp [Unearned_ret]
  | ok src =>
    simp only
    cases hb : src.Body with
    | error e => simp [Unearned_ret]
    | ok bytes =>
      simp only [Unearned_call]
      intro w4
      obtain ⟨ct, hpi, _⟩ := putObjectInput_spec P.bucket line bytes src
      cases hput : (P.backend w4 (.putObject
          (copyObject.putObjectInput P.bucket line bytes src))).1 with
      | error e =>
        refine Or.inr ?_
        simp [Unearned_ret]
      | ok dst =>
        refine Or.inl ⟨?_, ?_, ?_⟩
        · rw [hB.session_static _ w0]
          exact h0
        · rw [hB.session_static _ w1]
          exact h1
        · have := hB.put_present w4 _ dst hput
          rw [hpi] at this
          rw [hpi]
          exact this

/-- Over durable storage `copyObject` cannot return success without leaving
its line ready to be skipped. -/
theorem copyObject_unearned {σ : Type} (P : Params σ) (hB : Durable P.backend)
    (line : String) :
    (copyObject P.bucket line P.checkExistence P.config.OldProfile
      P.config.NewProfile).Unearned P.backend (Ready P line) := by
  simp only [copyObject, Unearned_call]
  intro w0
  refine Or.inr ?_
  cases h0 : (P.backend w0 (.newSession "old" P.config.OldProfile)).1 with
  | some e => simp [Unearned_ret]
  | none =>
    simp only [Unearned_call]
    intro w1
    refine Or.inr ?_
    cases h1 : (P.backend w1 (.newSession "new" P.config.NewProfile)).1 with
    | some e => simp [Unearned_ret]
    | none =>
      simp only
      cases P.checkExistence with
      | false => exact transfer_unearned P hB line w0 w1 h0 h1
      | true =>
        simp only [if_true, Unearned_call]
        intro w2
        cases h2 : (P.backend w2 (.headObject ⟨P.bucket, line⟩)).1 with
        | ok u =>
          refine Or.inl ⟨?_, ?_, hB.present_stable w2 _ _ h2⟩
          · rw [hB.session_static _ w0]
            exact h0
          · rw [hB.session_static _ w1]
            exact h1
        | error e => exact Or.inr (transfer_unearned P hB line w0 w1 h0 h1)

theorem Pool.init_earned {σ : Type} (P : Params σ) (lines : List String)
    (scanErr : Option String) (w : σ) : (Pool.init P lines scanErr w).Earned P := by
  refine ⟨?_, ?_⟩
  · intro line rest hmem
    simp only [Pool.init, List.mem_replicate] at hmem
    cases hmem.2
  · intro line hmem
    simp [Pool.init] at hmem

/-- Over durable storage every step keeps `Pool.Earned`. -/
theorem Pool.Step.earned {σ : Type} {P : Params σ} (hB : Durable P.backend)
    {s t : Pool σ} (hinv : s.Earned P) (h : Pool.Step P s t) : t.Earned P := by
  obtain ⟨hbusy, hfin⟩ := hinv
  cases h with
  | send line rest h2 h3 h4 => exact ⟨hbusy, hfin⟩
  | endScanErr err h2 h3 h4 =>
    refine ⟨fun line rest hmem => ?_, fun line hmem => (hfin line hmem).stable hB _⟩
    rcases hbusy line rest hmem with hr | hu
    · exact Or.inl (hr.stable hB _)
    · exact Or.inr hu
  | endScan h2 h3 h4 => exact ⟨hbusy, hfin⟩
  | close h2 => exact ⟨hbusy, hfin⟩
  | receive i line rest h2 h3 =>
    refine ⟨fun line1 rest1 hmem => ?_, hfin⟩
    rcases List.mem_or_eq_of_mem_set hmem with hold | heq
    · exact hbusy line1 rest1 hold
    · cases heq
      exact Or.inr (copyObject_unearned P hB line)
  | advance i line c k h2 =>
    refine ⟨fun line1 rest1 hmem => ?_, fun line1 hmem => (hfin line1 hmem).stable hB _⟩
    rcases List.mem_or_eq_of_mem_set hmem with hold | heq
    · rcases hbusy line1 rest1 hold with hr | hu
      · exact Or.inl (hr.stable hB _)
      · exact Or.inr hu
    · cases heq
      rcases hbusy line (.call c k) (List.getElem?_mem h2) with hr | hu
      · exact Or.inl (hr.stable hB _)
      · exact (Unearned_call _ _ c k).mp hu s.world
  | finishOk i line h2 =>
    refine ⟨fun line1 rest1 hmem => ?_, fun line1 hmem => ?_⟩
    · rcases List.mem_or_eq_of_mem_set hmem with hold | heq
      · exact hbusy line1 rest1 hold
      · cases heq
    · rcases List.mem_cons.mp hmem with heq | hold
      · cases heq
        rcases hbusy line (.ret none) (List.getElem?_mem h2) with hr | hu
        · exact hr
        · exact absurd rfl ((Unearned_ret _ _ none).mp hu)
      · exact hfin line1 hold
  | finishErr i line e h2 =>
    refine ⟨fun line1 rest1 hmem => ?_, fun line1 hmem => ?_⟩
    · rcases List.mem_or_eq_of_mem_set hmem with hold | heq
      · rcases hbusy line1 rest1 hold with hr | hu
        · exact Or.inl (hr.stable hB _)
        · exact Or.inr hu
      · cases heq
    · rcases List.mem_cons.mp hmem with heq | hold
      · cases heq
      · exact (hfin line1 hold).stable hB _
  | crash i line msg h2 =>
    refine ⟨fun line1 rest1 hmem => ?_, hfin⟩
    rcases List.mem_or_eq_of_mem_set hmem with hold | heq
    · exact hbusy line1 rest1 hold
    · cases heq
  | leave i h2 h3 h4 =>
    refine ⟨fun line1 rest1 hmem => ?_, hfin⟩
    rcases List.mem_or_eq_of_mem_set hmem with hold | heq
    · exact hbusy line1 rest1 hold
    · cases heq

theorem Pool.init_skipping {σ : Type} (P : Params σ) (lines : List String)
    (scanErr : Option String) (w : σ) (hready : ∀ line ∈ lines, Ready P line w) :
    (Pool.init P lines scanErr w).Skipping P lines := by
  refine ⟨hready, ?_, ?_, rfl, ?_⟩
  · intro line rest hmem
    simp only [Pool.init, List.mem_replicate] at hmem
    cases hmem.2
  · intro kr hmem
    simp [Pool.init] at hmem
  · intro e hmem
    simp [Pool.init] at hmem

/-- Over durable storage, with the existence check enabled, every step keeps
`Pool.Skipping`. -/
theorem Pool.Step.skipping {σ : Type} {P : Params σ} (hB : Durable P.backend)
    (hcheck : P.checkExistence = true) {lines : List String} {s t : Pool σ}
    (hinv : s.Inv P lines) (hskip : s.Skipping P lines) (h : Pool.Step P s t) :
    t.Skipping P lines := by
  obtain ⟨hready, hbusy, hfin, halive, hstill⟩ := hskip
  cases h with
  | send line rest h2 h3 h4 => exact ⟨hready, hbusy, hfin, halive, hstill⟩
  | endScanErr err h2 h3 h4 =>
    refine ⟨fun line hl => (hready line hl).stable hB _, hbusy, hfin, halive, ?_⟩
    intro e hmem
    rcases List.mem_append.mp hmem with hold | hnew
    · exact hstill e hold
    · rw [List.mem_singleton.mp hnew]
      rfl
  | endScan h2 h3 h4 => exact ⟨hready, hbusy, hfin, halive, hstill⟩
  | close h2 => exact ⟨hready, hbusy, hfin, halive, hstill⟩
  | receive i line rest h2 h3 =>
    refine ⟨hready, fun line1 rest1 hmem => ?_, hfin, halive, hstill⟩
    rcases List.mem_or_eq_of_mem_set hmem with hold | heq
    · exact hbusy line1 rest1 hold
    · cases heq
      refine ⟨?_, ?_⟩
      · refine hinv.perm.subset ?_
        rw [h3]
        simp
      · rw [hcheck]
        exact copyObject_skips P line
  | advance i line c k h2 =>
    obtain ⟨hline, hsk⟩ := hbusy line (.call c k) (List.getElem?_mem h2)
    obtain ⟨hc, hk⟩ := (Skips_call _ _ c k).mp hsk
    refine ⟨fun line hl => (hready line hl).stable hB _, fun line1 rest1 hmem => ?_, hfin,
      halive, ?_⟩
    · rcases List.mem_or_eq_of_mem_set hmem with hold | heq
      · exact hbusy line1 rest1 hold
      · cases heq
        exact ⟨hline, hk s.world (hready line hline)⟩
    · intro e hmem
      rcases List.mem_append.mp hmem with hold | hnew
      · exact hstill e hold
      · rw [List.mem_singleton.mp hnew]
        exact hc
  | finishOk i line h2 =>
    refine ⟨hready, fun line1 rest1 hmem => ?_, fun kr hmem => ?_, halive, hstill⟩
    · rcases List.mem_or_eq_of_mem_set hmem with hold | heq
      · exact hbusy line1 rest1 hold
      · cases heq
    · rcases List.mem_cons.mp hmem with heq | hold
      · rw [heq]
      · exact hfin kr hold
  | finishErr i line e h2 =>
    have := (hbusy line (.ret (some e)) (List.getElem?_mem h2)).2
    cases (Skips_ret _ _ _).mp this
  | crash i line msg h2 =>
    exact (hbusy line (.panic msg) (List.getElem?_mem h2)).2.elim
  | leave i h2 h3 h4 =>
    refine ⟨hready, fun line1 rest1 hmem => ?_, hfin, halive, hstill⟩
    rcases List.mem_or_eq_of_mem_set hmem with hold | heq
    · exact hbusy line1 rest1 hold
    · cases heq

theorem no_moves_no_calls (trace : List Event)
    (h : ∀ e ∈ trace, e.1.movesData = false) :
    getCalls trace = [] ∧ putCalls trace = [] := by
  unfold getCalls putCalls
  simp only [List.filterMap_eq_nil_iff]
  constructor
  · rintro ⟨c, r⟩ hmem
    have := h _ hmem
    cases c <;> first | rfl | cases this
  · rintro ⟨c, r⟩ hmem
    have := h _ hmem
    cases c <;> first | rfl | cases this

/-- C9, as amended: over durable storage, with the existence check enabled and
at least one worker, when a first run of the pool has ended with every
`copyObject` returning success, then all along every interleaving of a second
run on the same lines, started in the world the first run left, no source get
and no destination put is issued, no `copyObject` panics, every `copyObject`
that has returned returned success, and once every worker has left its loop
the lines `copyObject` returned on are exactly the lines of the file. -/
theorem rerun_skips {σ : Type} (P : Params σ) (hB : Durable P.backend)
    (hcheck : P.checkExistence = true) (hpos : 0 < P.numWorkers)
    (lines : List String) (scanErr1 scanErr2 : Option String) (w0 : σ) (s1 t : Pool σ)
    (hfirst : Reaches P (Pool.init P lines scanErr1 w0) s1) (hdone : s1.Done)
    (hok : ∀ kr ∈ s1.completed, kr.2 = none)
    (hsecond : Reaches P (Pool.init P lines scanErr2 s1.world) t) :
    getCalls t.trace = [] ∧ putCalls t.trace = [] ∧ t.crashed = false ∧
    (∀ kr ∈ t.completed, kr.2 = none) ∧
    (t.Done → (t.completed.map Prod.fst).Perm lines) := by
  have hinv1 : s1.Inv P lines :=
    Reaches.induct (fun u => u.Inv P lines) (fun _ _ hi hst => hst.inv hi)
      (Pool.init_inv P lines scanErr1 w0) hfirst
  have hearned : s1.Earned P :=
    Reaches.induct (fun u => u.Earned P) (fun _ _ hi hst => hst.earned hB hi)
      (Pool.init_earned P lines scanErr1 w0) hfirst
  have hready : ∀ line ∈ lines, Ready P line s1.world := by
    intro line hl
    have hmem : line ∈ s1.completed.map Prod.fst :=
      (hinv1.done hpos hdone).2.symm.subset hl
    obtain ⟨kr, hkr, rfl⟩ := List.mem_map.mp hmem
    have h2 := hok kr hkr
    refine hearned.finished kr.1 ?_
    rw [← h2]
    exact hkr
  have hboth : t.Inv P lines ∧ t.Skipping P lines :=
    Reaches.induct (fun u => u.Inv P lines ∧ u.Skipping P lines)
      (fun _ _ hi hst => ⟨hst.inv hi.1, hst.skipping hB hcheck hi.1 hi.2⟩)
      ⟨Pool.init_inv P lines scanErr2 s1.world,
        Pool.init_skipping P lines scanErr2 s1.world hready⟩ hsecond
  obtain ⟨hg, hp⟩ := no_moves_no_calls t.trace hboth.2.still
  exact ⟨hg, hp, hboth.2.alive, hboth.2.finished, fun hd => (hboth.1.done hpos hd).2⟩

/-- The scripted buckets are durable storage. -/
theorem Fake.durable (f : Fake) : Durable f.backend := by
  refine ⟨?_, ?_, ?_⟩
  · intro w i out h
    cases hp : f.putErr with
    | some e => simp [Fake.backend, hp] at h
    | none => simp [Fake.backend, hp]
  · intro w c i h
    simp only [Fake.backend] at h
    have hmem : (i.Bucket, i.Key) ∈ w := by
      by_contra hn
      simp [hn] at h
    cases c with
    | putObject j =>
      cases hp : f.putErr with
      | some e => simp [Fake.backend, hmem, hp]
      | none => simp [Fake.backend, hmem, hp]
    | newSession _ _ => simp [Fake.backend, hmem]
    | headObject _ => simp [Fake.backend, hmem]
    | getObject _ => simp [Fake.backend, hmem]
    | timeNow => simp [Fake.backend, hmem]
    | timeSince _ => simp [Fake.backend, hmem]
    | print _ => simp [Fake.backend, hmem]
  · intro w w1 profile cfg
    rfl

/-! ### Concrete runs -/

/-- A schedule that is enabled reaches the state it leads to. -/
theorem Pool.reaches_after {σ : Type} (P : Params σ) (s : Pool σ) (schedule : List Action)
    (h : (s.run P schedule).isSome = true) : Reaches P s (s.after P schedule) := by
  refine ⟨schedule, ?_⟩
  unfold Pool.after
  cases hr : s.run P schedule with
  | none => simp [hr] at h
  | some t => rfl

theorem firstSchedule_enabled :
    ((Pool.init shopParams ["a.png", "b.jpg", "missing.txt"] none []).run shopParams
      firstSchedule).isSome = true := by decide

theorem secondSchedule_enabled :
    ((Pool.init shopParams ["a.png", "b.jpg", "missing.txt"] none firstEnd.world).run
      shopParams secondSchedule).isSome = true := by decide

theorem goodFirstSchedule_enabled :
    ((Pool.init shopParams ["a.png", "b.jpg"] none []).run shopParams
      goodFirstSchedule).isSome = true := by decide

theorem goodSecondSchedule_enabled :
    ((Pool.init shopParams ["a.png", "b.jpg"] none goodFirstEnd.world).run
      shopParams goodSecondSchedule).isSome = true := by decide

/-- The witness of C1: the run of `copyObject` on `photo.JPG` over `shop` gets
the text object and puts it with the source content-type. -/
theorem copyObject_contentType_witness :
    ((⟨"b", "photo.JPG"⟩, Res.ok textObject) ∈
      getCalls (exec shop.backend
        (copyObject "b" "photo.JPG" false someProfile someProfile) []).trace) ∧
    ((⟨"b", "photo.JPG", [104, 105, 10], some "text/plain"⟩, Res.ok ⟨some "e1"⟩) ∈
      putCalls (exec shop.backend
        (copyObject "b" "photo.JPG" false someProfile someProfile) []).trace) ∧
    SpecContentType "photo.JPG" textObject.ContentType (some "text/plain") :=
  ⟨by decide, by decide,
    copyObject_contentType shop.backend [] "b" "photo.JPG" false someProfile someProfile
      ⟨"b", "photo.JPG"⟩ textObject ⟨"b", "photo.JPG", [104, 105, 10], some "text/plain"⟩
      (Res.ok ⟨some "e1"⟩) (by decide) (by decide)⟩

/-- The examples of the spec: whatever the source object, `photo.JPG` and
`c.txt` keep its content-type, `a.jpg` and `a.jpeg` get image/jpeg and `b.png`
gets image/png. -/
theorem contentType_examples (bucket : String) (bytes : List Byte) (src : GetObjectOutput) :
    (copyObject.putObjectInput bucket "photo.JPG" bytes src).ContentType = src.ContentType ∧
    (copyObject.putObjectInput bucket "a.jpg" bytes src).ContentType = some "image/jpeg" ∧
    (copyObject.putObjectInput bucket "a.jpeg" bytes src).ContentType = some "image/jpeg" ∧
    (copyObject.putObjectInput bucket "b.png" bytes src).ContentType = some "image/png" ∧
    (copyObject.putObjectInput bucket "c.txt" bytes src).ContentType = src.ContentType := by
  refine ⟨?_, ?_, ?_, ?_, ?_⟩ <;> rfl

/-- The witness of C2: the run of `copyObject` on `c.txt` over `shop`. -/
theorem copyObject_put_once_witness :
    ((⟨"b", "c.txt"⟩, Res.ok textObject) ∈
      getCalls (exec shop.backend
        (copyObject "b" "c.txt" true someProfile someProfile) []).trace) ∧
    textObject.Body = .ok [104, 105, 10] ∧
    getCalls (exec shop.backend
        (copyObject "b" "c.txt" true someProfile someProfile) []).trace
      = [(⟨"b", "c.txt"⟩, .ok textObject)] ∧
    ∃ pi pr, putCalls (exec shop.backend
        (copyObject "b" "c.txt" true someProfile someProfile) []).trace = [(pi, pr)] ∧
      pi.Bucket = "b" ∧ pi.Key = "c.txt" ∧ pi.Body = [104, 105, 10] ∧
      "b" = "b" ∧ "c.txt" = "c.txt" :=
  ⟨by decide, rfl,
    copyObject_put_once shop.backend [] "b" "c.txt" true someProfile someProfile
      ⟨"b", "c.txt"⟩ textObject [104, 105, 10] (by decide) rfl⟩

/-- Over a destination that answers another entity tag, the run of
`copyObject` on `c.txt` returns the mismatch error. -/
theorem copyObject_integrity_witness :
    ((⟨"b", "c.txt"⟩, Res.ok textObject) ∈
      getCalls (exec shopOtherTag.backend
        (copyObject "b" "c.txt" false someProfile someProfile) []).trace) ∧
    ((⟨"b", "c.txt", [104, 105, 10], some "text/plain"⟩, Res.ok ⟨some "e2"⟩) ∈
      putCalls (exec shopOtherTag.backend
        (copyObject "b" "c.txt" false someProfile someProfile) []).trace) ∧
    (exec shopOtherTag.backend
        (copyObject "b" "c.txt" false someProfile someProfile) []).result
      = .returned (some "[c.txt] ETags don't match after copy: e1 != e2") := by
  have h := copyObject_integrity shopOtherTag.backend [] "b" "c.txt" false someProfile
    someProfile ⟨"b", "c.txt"⟩ textObject ⟨"b", "c.txt", [104, 105, 10], some "text/plain"⟩
    ⟨some "e2"⟩ "e1" "e2" (by decide) (by decide) rfl rfl
  obtain ⟨msg, hres, hmsg, _⟩ := h.2 (by decide)
  refine ⟨by decide, by decide, ?_⟩
  rw [hres, hmsg]
  rfl

/-- The witness of C4: over a destination that holds `c.txt`, the run of
`copyObject` on it is the skip path. -/
theorem copyObject_skip_witness :
    ((⟨"b", "c.txt"⟩, Res.ok ()) ∈
      headCalls (exec shop.backend
        (copyObject "b" "c.txt" true someProfile someProfile) [("b", "c.txt")]).trace) ∧
    (exec shop.backend
        (copyObject "b" "c.txt" true someProfile someProfile) [("b", "c.txt")]).result
      = .returned none ∧
    getCalls (exec shop.backend
        (copyObject "b" "c.txt" true someProfile someProfile) [("b", "c.txt")]).trace = [] ∧
    putCalls (exec shop.backend
        (copyObject "b" "c.txt" true someProfile someProfile) [("b", "c.txt")]).trace = [] :=
  have h := copyObject_skip shop.backend [("b", "c.txt")] "b" "c.txt" true someProfile
    someProfile ⟨"b", "c.txt"⟩ (by decide)
  ⟨by decide, h.2.2.1, h.2.2.2.2.1, h.2.2.2.2.2.1⟩

/-- The witness of C5: over an empty destination the probe for `c.txt` fails,
and the run is the run with the check disabled. -/
theorem copyObject_probe_failure_witness :
    ((⟨"b", "c.txt"⟩, Res.error "NotFound") ∈
      headCalls (exec shop.backend
        (copyObject "b" "c.txt" true someProfile someProfile) []).trace) ∧
    (∀ w1 i e1, (shop.backend w1 (.headObject i)).1 = .error e1 →
      (shop.backend w1 (.headObject i)).2 = w1) ∧
    (exec shop.backend (copyObject "b" "c.txt" true someProfile someProfile) []).result
      = (exec shop.backend
          (copyObject "b" "c.txt" false someProfile someProfile) []).result :=
  ⟨by decide, fun _ _ _ _ => rfl,
    (copyObject_probe_failure shop.backend [] "b" "c.txt" someProfile someProfile
      ⟨"b", "c.txt"⟩ "NotFound" (by decide) (fun _ _ _ _ => rfl)).1⟩

/-- The witness of C9 as amended: two runs on the two lines the source holds. -/
theorem rerun_skips_witness :
    Durable shopParams.backend ∧ shopParams.checkExistence = true ∧
    0 < shopParams.numWorkers ∧
    Reaches shopParams (Pool.init shopParams ["a.png", "b.jpg"] none []) goodFirstEnd ∧
    goodFirstEnd.Done ∧ (∀ kr ∈ goodFirstEnd.completed, kr.2 = none) ∧
    Reaches shopParams (Pool.init shopParams ["a.png", "b.jpg"] none goodFirstEnd.world)
      goodSecondEnd ∧
    goodSecondEnd.Done ∧
    getCalls goodSecondEnd.trace = [] ∧ putCalls goodSecondEnd.trace = [] ∧
    (goodSecondEnd.completed.map Prod.fst).Perm ["a.png", "b.jpg"] :=
  have hfirst := Pool.reaches_after shopParams
    (Pool.init shopParams ["a.png", "b.jpg"] none []) goodFirstSchedule
    goodFirstSchedule_enabled
  have hsecond := Pool.reaches_after shopParams
    (Pool.init shopParams ["a.png", "b.jpg"] none goodFirstEnd.world) goodSecondSchedule
    goodSecondSchedule_enabled
  have hdone : goodFirstEnd.Done := by decide
  have hok : ∀ kr ∈ goodFirstEnd.completed, kr.2 = none := by decide
  have hdone2 : goodSecondEnd.Done := by decide
  have hpos : 0 < shopParams.numWorkers := by decide
  have h := rerun_skips shopParams (Fake.durable shop) rfl hpos ["a.png", "b.jpg"] none none
    [] goodFirstEnd goodSecondEnd hfirst hdone hok hsecond
  ⟨Fake.durable shop, rfl, hpos, hfirst, hdone, hok, hsecond, hdone2, h.1, h.2.1,
    h.2.2.2.2 hdone2⟩

/-- The counterexample to C9 as stated: over durable storage with the
existence check enabled, the first run fails on `missing.txt`, which the source
does not hold, and the second run issues a source get for it again and fails
on it again. -/
theorem rerun_gets_again :
    ¬ ∀ (P : Params (List (String × String))) (lines : List String)
        (w0 : List (String × String)) (s1 t : Pool (List (String × String))),
        Durable P.backend → P.checkExistence = true → 0 < P.numWorkers →
        Reaches P (Pool.init P lines none w0) s1 → s1.Done →
        Reaches P (Pool.init P lines none s1.world) t → t.Done →
        getCalls t.trace = [] ∧ putCalls t.trace = [] ∧
          ∀ kr ∈ t.completed, kr.2 = none := by
  intro h
  have hfirst := Pool.reaches_after shopParams
    (Pool.init shopParams ["a.png", "b.jpg", "missing.txt"] none []) firstSchedule
    firstSchedule_enabled
  have hsecond := Pool.reaches_after shopParams
    (Pool.init shopParams ["a.png", "b.jpg", "missing.txt"] none firstEnd.world)
    secondSchedule secondSchedule_enabled
  have hdone : firstEnd.Done := by decide
  have hdone2 : secondEnd.Done := by decide
  have hpos : 0 < shopParams.numWorkers := by decide
  have hget := (h shopParams ["a.png", "b.jpg", "missing.txt"] [] firstEnd secondEnd
    (Fake.durable shop) rfl hpos hfirst hdone hsecond hdone2).1
  have hne : getCalls secondEnd.trace
      = [(⟨"b", "missing.txt"⟩, Res.error "NoSuchKey")] := by decide
  rw [hne] at hget
  cases hget

/-! ### Where the code departs from the spec -/

theorem Names_iff (s t : String) : Names s t ↔ t.data <:+: s.data := by
  constructor
  · rintro ⟨p, q, rfl⟩
    exact ⟨p.data, q.data, by simp [String.data_append]⟩
  · rintro ⟨p, q, h⟩
    refine ⟨⟨p⟩, ⟨q⟩, ?_⟩
    apply String.ext
    simp [String.data_append, h]

/-- C7, the failing input: the body of `a.txt` cannot be read. `copyObject`
returns an error that does not name the key, and in the pool of `main` the
only line printed for the key is the report of the worker, which does not
name the key either. -/
theorem worker_report_omits_key :
    (exec shopBrokenBody.backend
        (copyObject "b" "a.txt" false someProfile someProfile) []).result
      = .returned (some "failed to read object body: unexpected EOF") ∧
    printed (((Pool.init { shopParams with backend := shopBrokenBody.backend }
        ["a.txt"] none []).after { shopParams with backend := shopBrokenBody.backend }
        ([.send, .endScan, .close] ++ soloCopy 5 ++ allLeave)).trace)
      = ["Error processing line: failed to read object body: unexpected EOF\n"] ∧
    ¬ Names "Error processing line: failed to read object body: unexpected EOF\n"
      "a.txt" := by
  refine ⟨by decide, by decide, ?_⟩
  rw [Names_iff]
  decide

/-- Whenever the flags are given and the configuration loads, a key list that
cannot be opened makes `main` print the message and end with status 0, no
goroutine started. -/
theorem main_open_failure {σ : Type} (B : Backend σ) (w : σ) (fs : Files) (flags : Flags)
    (config : Config) (err : String)
    (hflags : flags.configPath ≠ "" ∧ flags.filename ≠ "" ∧ flags.bucket ≠ "")
    (hconfig : ReadConfig fs flags.configPath = .ok config)
    (hopen : fs.openLines flags.filename = .error err) :
    main B w fs flags = .exit 0 ["Error opening file: " ++ err ++ "\n"] := by
  unfold main
  simp [hflags.1, hflags.2.1, hflags.2.2, hconfig, hopen]

/-- C8, the failing input: the key list cannot be opened. `main` prints the
message and starts no worker, and the process ends with status 0, where a
configuration that cannot be loaded ends it with status 1. -/
theorem main_open_failure_exits_zero :
    main shop.backend [] noKeyList shopFlags
      = .exit 0 ["Error opening file: open keys.txt: no such file or directory\n"] ∧
    main shop.backend []
        { noKeyList with readFile := fun _ => .error "open config.yaml: no such file" }
        shopFlags
      = .exit 1 ["Error loading configuration: error reading config file: open config.yaml: no such file\n"] :=
  ⟨rfl, rfl⟩

/-- C3, the failing inputs: the source answers the get of `c.txt` without an
entity tag. Over a destination that answers the put without one either, the
fetch and the upload succeed and the two tags are equal, and `copyObject` does
not return success: it panics. Over a destination that answers the put with
the tag `e1`, the fetch and the upload succeed and the two tags differ, and
`copyObject` does not return an error: it panics. -/
theorem copyObject_integrity_panics :
    (((⟨"b", "c.txt"⟩, Res.ok untaggedObject) ∈
        getCalls (exec shopUntagged.backend
          (copyObject "b" "c.txt" false someProfile someProfile) []).trace) ∧
      ((⟨"b", "c.txt", [104, 105, 10], some "text/plain"⟩, Res.ok ⟨none⟩) ∈
        putCalls (exec shopUntagged.backend
          (copyObject "b" "c.txt" false someProfile someProfile) []).trace) ∧
      untaggedObject.ETag = (PutObjectOutput.mk none).ETag ∧
      (exec shopUntagged.backend
          (copyObject "b" "c.txt" false someProfile someProfile) []).result
        = .panicked "runtime error: invalid memory address or nil pointer dereference") ∧
    (((⟨"b", "c.txt"⟩, Res.ok untaggedObject) ∈
        getCalls (exec shopUntaggedSource.backend
          (copyObject "b" "c.txt" false someProfile someProfile) []).trace) ∧
      ((⟨"b", "c.txt", [104, 105, 10], some "text/plain"⟩, Res.ok ⟨some "e1"⟩) ∈
        putCalls (exec shopUntaggedSource.backend
          (copyObject "b" "c.txt" false someProfile someProfile) []).trace) ∧
      untaggedObject.ETag ≠ (PutObjectOutput.mk (some "e1")).ETag ∧
      (exec shopUntaggedSource.backend
          (copyObject "b" "c.txt" false someProfile someProfile) []).result
        = .panicked "runtime error: invalid memory address or nil pointer dereference") := by
  refine ⟨⟨by decide, by decide, rfl, by decide⟩, ⟨by decide, by decide, by decide, by decide⟩⟩

/-- C10, the general case: whenever the get and the put of a `copyObject` run
succeeded and one of the two answers carries no entity tag, the run panics. -/
theorem copyObject_absent_etag_panics {σ : Type} (B : Backend σ) (w : σ)
    (bucket key : String) (check : Bool) (old new : ProfileConfig)
    (gi : GetObjectInput) (src : GetObjectOutput)
    (pi : PutObjectInput) (dst : PutObjectOutput)
    (hget : (gi, Res.ok src) ∈
      getCalls (exec B (copyObject bucket key check old new) w).trace)
    (hput : (pi, Res.ok dst) ∈
      putCalls (exec B (copyObject bucket key check old new) w).trace)
    (h : src.ETag = none ∨ dst.ETag = none) :
    (exec B (copyObject bucket key check old new) w).result
      = .panicked "runtime error: invalid memory address or nil pointer dereference" := by
  rcases copyObject_calls B w bucket key check old new with ⟨hg, _⟩ | ⟨w1, hg, hp, hr⟩
  · rw [hg] at hget
    cases hget
  · rw [hg] at hget
    rw [hp] at hput
    obtain ⟨t, w2, hres⟩ := transfer_result B w1 bucket key gi src pi dst hget hput
    rw [hr, hres]
    exact verify_absent B w2 key t src dst h

/-- C10, the failing input: the destination answers the put of `c.txt` without
an entity tag. The get and the put succeed, `copyObject` panics on the
comparison, and in the pool of `main` the worker reaches the panic, which
ends the process. -/
theorem copyObject_panics_without_etag :
    (exec shopNoTag.backend
        (copyObject "b" "c.txt" false someProfile someProfile) []).result
      = .panicked "runtime error: invalid memory address or nil pointer dereference" ∧
    putCalls (exec shopNoTag.backend
        (copyObject "b" "c.txt" false someProfile someProfile) []).trace
      = [(⟨"b", "c.txt", [104, 105, 10], some "text/plain"⟩, .ok ⟨none⟩)] ∧
    ((Pool.init { shopParams with backend := shopNoTag.backend } ["c.txt"] none []).after
        { shopParams with backend := shopNoTag.backend }
        ([.send, .endScan, .close, .receive 0] ++ List.replicate 6 (.advance 0)
          ++ [.crash 0])).crashed = true := by
  refine ⟨by decide, by decide, by decide⟩

/-- After the panic of C10 the deferred `wg.Done()` of the worker has run:
when the other workers have left their loops, `wg.Wait()` returns although
the line was never completed, and the state is not `Pool.Done`. -/
theorem wait_returns_after_panic :
    ((Pool.init { shopParams with backend := shopNoTag.backend } ["c.txt"] none []).after
        { shopParams with backend := shopNoTag.backend }
        ([.send, .endScan, .close, .receive 0] ++ List.replicate 6 (.advance 0)
          ++ (List.range 99).map (fun i => .leave (i + 1)) ++ [.crash 0])).Waited ∧
    ((Pool.init { shopParams with backend := shopNoTag.backend } ["c.txt"] none []).after
        { shopParams with backend := shopNoTag.backend }
        ([.send, .endScan, .close, .receive 0] ++ List.replicate 6 (.advance 0)
          ++ (List.range 99).map (fun i => .leave (i + 1)) ++ [.crash 0])).completed = [] ∧
    ¬ ((Pool.init { shopParams with backend := shopNoTag.backend } ["c.txt"] none []).after
        { shopParams with backend := shopNoTag.backend }
        ([.send, .endScan, .close, .receive 0] ++ List.replicate 6 (.advance 0)
          ++ (List.range 99).map (fun i => .leave (i + 1)) ++ [.crash 0])).Done := by
  refine ⟨by decide, by decide, by decide⟩

end Migrate
